import Mathlib

/-!
The MATLAB command interface of the MTF tracking library: a shallow embedding of
`Examples/cpp/mexMTF.cc`.

* Buffers (`mxArray` payloads, `cv::Mat` data) are lists; an access outside a
  buffer, a null dereference and an out-of-range `std::vector` subscript are
  undefined behaviour in C++ and are modelled by `none` / `Outcome.undefined`.
* `mexErrMsgTxt` aborts the running call; the static variables keep whatever
  value they had when it was raised.
* `int` is the 32 bit two's complement type. A host size (`mwSize`) assigned to
  an `int` is reduced modulo `2^32` (`toInt`); an `int` operation whose exact
  result exceeds `INT_MAX` is a signed overflow, which is undefined behaviour
  (`intResult`). The number of dimensions of a host array and the length of a
  host string are taken to fit an `int`.
* A host string is read through `mxGetString` into a `char` buffer and used as a C
  string, which ends at its first NUL character (`cString`).
* 64 bit floating point values are only moved around by this file, so their type
  is a parameter `D`.
-/

namespace MexMTF

/-! ## Data model -/

/-- An `unsigned char` pixel sample. -/
abbrev uchar := Fin 256

/-- A dense `cv::Mat`: `rows x cols` elements of `channels` samples each, stored
row-major with the channel index varying fastest. -/
structure Mat (α : Type) where
  rows : Nat
  cols : Nat
  channels : Nat
  data : List α
deriving DecidableEq

/-- Element class and payload of an `mxArray`, as seen through `mxIsClass`,
`mxIsChar`, `mxGetString`, `mxGetData` and `mxGetPr`. -/
inductive MxData (D : Type) where
  | chars (s : String)
  | uint8 (p : List uchar)
  | uint32 (p : List Nat)
  | double (p : List D)
  | other
deriving DecidableEq

/-- A host array: its dimension vector (`mxGetDimensions`) and its payload, stored
column-major. -/
structure MxArray (D : Type) where
  dims : List Nat
  data : MxData D
deriving DecidableEq

/-- Number of elements announced by the dimension vector (`mxGetNumberOfElements`). -/
def MxArray.numel {D : Type} (a : MxArray D) : Nat := a.dims.prod

/-- Largest value of an `int`. -/
def INT_MAX : Nat := 2147483647

/-- Conversion of a host size (`mwSize`, unsigned 64 bit) to `int`, as in
`int height = img_dims[0]`: the value modulo `2^32`, read as a two's complement
number. -/
def toInt (n : Nat) : Int :=
  if n % 4294967296 ≤ INT_MAX then ((n % 4294967296 : Nat) : Int)
  else ((n % 4294967296 : Nat) : Int) - 4294967296

/-- An `int` operation on non-negative operands whose exact result is `v`: the
result is `v` when it fits an `int`, and a signed overflow (`none`) otherwise. -/
def intResult (v : Nat) : Option Nat :=
  if v ≤ INT_MAX then some v else none

/-- The C string held by a `char` buffer filled by `mxGetString`: the characters
before the first NUL. -/
def cString (s : String) : String :=
  String.mk (s.toList.takeWhile (fun ch => ch ≠ Char.ofNat 0))

/-- Texts passed to `mexErrMsgTxt`. -/
inductive MexError where
  | notEnoughInputs
  | firstArgNotString
  | invalidCommand (cmd_str : String)
  | createSecondArgNotString
  | initializeNeedsTwoOutputs
  | mustBeCreated
  | objectsNotObtained
  | objectsException
  | updateNeedsTwoInputs
  | updateNeedsTwoOutputs
  | mustBeInitializedUpdate
  | setRegionNeedsTwoInputs
  | setRegionNeedsTwoOutputs
  | mustBeInitializedSetRegion
  | removeNeedsOneOutput
  | invalidTrackerID (tracker_id n_trackers : Nat)
  | trackerIDNotUint32
  | imageNotUint8
  | imageDims
  | cornersNotDouble
  | cornersDims
  | cornersSize
deriving DecidableEq

/-- The message shown to the host for each error. The numbers of
`invalidTrackerID` are printed with `%d`, that is, as `int`. -/
def MexError.text : MexError → String
  | .notEnoughInputs => "Not enough input arguments."
  | .firstArgNotString => "The first argument must be a string."
  | .invalidCommand cmd_str => "Invalid comand provided: " ++ cmd_str ++ "."
  | .createSecondArgNotString => "Second input argument for creating tracker must be a string."
  | .initializeNeedsTwoOutputs => "2 output arguments are needed to initialize tracker."
  | .mustBeCreated => "Tracker must be created before it can be initialized."
  | .objectsNotObtained => "Object(s) to be tracked could not be obtained.\n"
  | .objectsException => "Exception encountered while obtaining the objects to track"
  | .updateNeedsTwoInputs => "At least 2 input arguments are needed to update tracker."
  | .updateNeedsTwoOutputs => "2 output arguments are needed to update tracker."
  | .mustBeInitializedUpdate => "Tracker must be initialized before it can be updated."
  | .setRegionNeedsTwoInputs => "At least 2 input arguments are needed to reset tracker."
  | .setRegionNeedsTwoOutputs => "2 output arguments are needed to reset tracker."
  | .mustBeInitializedSetRegion => "Tracker must be initialized before it can be reset."
  | .removeNeedsOneOutput => "1 output argument is needed to reset tracker."
  | .invalidTrackerID tracker_id n_trackers =>
      "Tracker ID " ++ toString (toInt tracker_id) ++ " is invalid since only " ++
        toString (toInt n_trackers) ++ " trackers have been created"
  | .trackerIDNotUint32 => "Tracker ID must be of 32 bit unsigned integral type"
  | .imageNotUint8 => "Input image must be of 8 bit unsigned integral type"
  | .imageDims => "Input image must have 2 or 3 dimensions"
  | .cornersNotDouble => "Input corner array must be of 64 bit floating point type"
  | .cornersDims => "Input corner array must have 2 dimensions"
  | .cornersSize => "Input corner array must be of size 2 x 4"

/-- Result of a marshaling helper: a value, an abort through `mexErrMsgTxt`, or
undefined behaviour. -/
inductive Res (α : Type) where
  | ok (a : α)
  | error (e : MexError)
  | undefined
deriving DecidableEq

/-- Lift a buffer computation: `none` is an access outside a buffer. -/
def Res.ofOption {α : Type} : Option α → Res α
  | some a => .ok a
  | none => .undefined

/-! ## Buffer marshaling -/

/-- The loop `for(int i = 0; i < n; ++i) body`, threading the loop state. -/
def forLoop {σ : Type} (n : Nat) (body : Nat → σ → Option σ) (s : σ) : Option σ :=
  (List.range n).foldlM (fun acc i => body i acc) s

/-- Macro `_A3D_IDX_COLUMN_MAJOR(i,j,k,nrows,ncols)`, that is,
`((i)+((j)+(k)*ncols)*nrows)` evaluated in `int`. -/
def _A3D_IDX_COLUMN_MAJOR (i j k nrows ncols : Nat) : Option Nat :=
  (intResult (k * ncols)).bind fun a =>
  (intResult (j + a)).bind fun b =>
  (intResult (b * nrows)).bind fun c =>
  intResult (i + c)

/-- Macro `_A3D_IDX_OPENCV(i,j,k,nrows,ncols,nchannels)`, that is,
`(((i*ncols + j)*nchannels) + (k))` evaluated in `int`; `nrows` is not used by the
macro body. -/
def _A3D_IDX_OPENCV (i j k _nrows ncols nchannels : Nat) : Option Nat :=
  (intResult (i * ncols)).bind fun a =>
  (intResult (a + j)).bind fun b =>
  (intResult (b * nchannels)).bind fun c =>
  intResult (c + k)

/-- Function `copyMatrixFromMatlab`: copies a column-major host buffer into the
data of `to_`, channel by channel, column by column, row by row. -/
def copyMatrixFromMatlab {α : Type} (from_ : List α) (to_ : Mat α) (n_channels : Nat) :
    Option (Mat α) :=
  let n_rows := to_.rows
  let n_cols := to_.cols
  let pdata := to_.data
  (forLoop n_channels (fun c =>
    forLoop n_cols (fun x =>
      forLoop n_rows (fun y pdata =>
        match (_A3D_IDX_COLUMN_MAJOR y x c n_rows n_cols).bind (fun idx => from_[idx]?) with
        | none => none
        | some element =>
          match _A3D_IDX_OPENCV y x c n_rows n_cols n_channels with
          | none => none
          | some idx =>
            if idx < pdata.length then some (pdata.set idx element) else none))) pdata).map
    (fun pdata => { to_ with data := pdata })

/-- OpenCV `cv::transpose` on a single-channel matrix: the result has `src.cols`
rows and `src.rows` columns and `dst(i,j) = src(j,i)`. -/
def cv_transpose {α : Type} (src : Mat α) : Option (Mat α) :=
  ((List.range (src.cols * src.rows)).mapM
      (fun k => src.data[(k % src.rows) * src.cols + k / src.rows]?)).map
    (fun d => { rows := src.cols, cols := src.rows, channels := src.channels, data := d })

/-- Function `getImage`: decodes a host pixel buffer into a frame. The dimensions
are converted to `int`; a negative size given to the `cv::Mat` constructor is
outside the contract of `cv::Mat`, so no frame is defined for it. -/
def getImage {D : Type} (mx_img : MxArray D) : Res (Mat uchar) :=
  let img_n_dims := mx_img.dims.length
  match mx_img.data with
  | .uint8 img_ptr =>
    if img_n_dims < 2 ∨ img_n_dims > 3 then .error .imageDims
    else
      let n_channels := if img_n_dims = 2 then 1 else 3
      let height := toInt (mx_img.dims.getD 0 0)
      let width := toInt (mx_img.dims.getD 1 0)
      if height < 0 ∨ width < 0 then .undefined
      else
        let img : Mat uchar :=
          { rows := height.toNat, cols := width.toNat, channels := n_channels,
            data := List.replicate (height.toNat * width.toNat * n_channels) 0 }
        if img_n_dims = 2 then
          Res.ofOption (cv_transpose
            { rows := width.toNat, cols := height.toNat, channels := 1, data := img_ptr })
        else
          Res.ofOption (copyMatrixFromMatlab img_ptr img 3)
  | _ => .error .imageNotUint8
/-! ## Loop nest of `copyMatrixFromMatlab`, flattened -/

section LoopDefs
variable {α : Type}

/-- Exact value of `_A3D_IDX_COLUMN_MAJOR(i,j,k,nrows,ncols)`. -/
def columnMajorIndex (i j k nrows ncols : Nat) : Nat :=
  i + (j + k * ncols) * nrows

/-- Exact value of `_A3D_IDX_OPENCV(i,j,k,nrows,ncols,nchannels)`. -/
def opencvIndex (i j k ncols nchannels : Nat) : Nat :=
  (i * ncols + j) * nchannels + k

/-- One iteration of the innermost loop body of `copyMatrixFromMatlab`, given the
two indices that the macros yield. -/
def copyBody (from_ : List α) (r w : Option Nat) (pdata : List α) : Option (List α) :=
  match r.bind (fun idx => from_[idx]?) with
  | none => none
  | some element =>
    match w with
    | none => none
    | some idx => if idx < pdata.length then some (pdata.set idx element) else none

/-- One iteration of the innermost loop body of `copyMatrixFromMatlab` with
indices that did not overflow, as a checked read followed by a checked write. -/
def copyStep (from_ : List α) (r w : Nat) (pdata : List α) : Option (List α) :=
  match from_[r]? with
  | none => none
  | some element => if w < pdata.length then some (pdata.set w element) else none

/-- The iterations of the loop nest of `copyMatrixFromMatlab`, in execution order. -/
def copyIterations (n_channels n_cols n_rows : Nat) : List (Nat × Nat × Nat) :=
  (List.range n_channels).flatMap (fun c =>
    (List.range n_cols).flatMap (fun x =>
      (List.range n_rows).map (fun y => (c, x, y))))

end LoopDefs

/-! ## Session index and region marshaling -/

/-- Function `getTrackerID`: reads a session index from a uint32 host array. -/
def getTrackerID {D : Type} (mx_tracker_id : MxArray D) : Res Nat :=
  match mx_tracker_id.data with
  | .uint32 tracker_id_ptr => Res.ofOption tracker_id_ptr[0]?
  | _ => .error .trackerIDNotUint32

/-- Function `getCorners`: decodes a host corner matrix into a `2 x 4` region. -/
def getCorners {D : Type} (mx_corners : MxArray D) : Res (Mat D) :=
  let corners_n_dims := mx_corners.dims.length
  match mx_corners.data with
  | .double corners_ptr =>
    if corners_n_dims ≠ 2 then .error .cornersDims
    else if mx_corners.dims.getD 0 0 ≠ 2 ∨ mx_corners.dims.getD 1 0 ≠ 4 then
      .error .cornersSize
    else
      Res.ofOption
        (cv_transpose { rows := 4, cols := 2, channels := 1, data := corners_ptr })
  | _ => .error .cornersNotDouble

/-- Function `setCorners`: encodes a region into a fresh `2 x 4` host matrix.
`cv::transpose` writes into the host matrix only when its result is `4 x 2`;
for any other shape it allocates its own buffer and the host matrix keeps the
zeros it was created with. -/
def setCorners {D : Type} [Zero D] (corners : Mat D) : Option (MxArray D) :=
  let mx_corners : MxArray D := { dims := [2, 4], data := .double (List.replicate 8 0) }
  match cv_transpose corners with
  | none => none
  | some out_corners =>
    if out_corners.rows = 4 ∧ out_corners.cols = 2 ∧ out_corners.channels = 1 then
      some { mx_corners with data := .double out_corners.data }
    else some mx_corners

/-- Element access `m.at<T>(i, j)` of a single-channel matrix. -/
def Mat.at? {α : Type} (m : Mat α) (i j : Nat) : Option α :=
  m.data[i * m.cols + j]?

/-! ## Collaborators -/

/-- The collaborators reached from `mexMTF.cc`: the parameter reader, the tracker
and pre-processor factories, interactive object selection, and the methods of the
tracker and of the pre-processing pipeline. `W` is the state of everything these
calls can read or change, `T` a tracker object, `P` a pre-processor object and `X`
an `mtf::utils::Exception`, the only exception type that `mexMTF.cc` catches. A
method returns the new collaborator state together with the exception it threw,
if any. -/
structure Engine (W T P X D : Type) where
  /-- Function `readParams(0, nullptr)` after `config_dir` was set. -/
  readParams : W → String → W × Bool
  /-- Parameter `reset_template`. -/
  reset_template : W → Bool
  /-- Factory `mtf::getTracker`; `none` is a null pointer. -/
  getTracker : W → W × Except X (Option T)
  /-- Factory `mtf::getPreProc(tracker->inputType(), pre_proc_type)`. -/
  getPreProc : W → T → W × Except X P
  /-- Method `ObjUtils::selectObjects` followed by `getObj().corners.clone()`;
  `none` is a `false` return. -/
  selectObjects : W → Mat uchar → W × Except X (Option (Mat D))
  /-- Method `PreProc::initialize`. -/
  ppInitialize : W → P → Mat uchar → W × Option X
  /-- The pre-processors reached from a pre-processor through `next`. -/
  ppChain : W → P → List P
  /-- Call `tracker->setImage(pre_proc->getFrame())`. -/
  setImage : W → T → P → W × Option X
  /-- Method `TrackerBase::initialize`. -/
  trkInitialize : W → T → Mat D → W × Option X
  /-- Method `PreProc::update`. -/
  ppUpdate : W → P → Mat uchar → W × Option X
  /-- Method `TrackerBase::update`. -/
  trkUpdate : W → T → W × Option X
  /-- Method `TrackerBase::setRegion`. -/
  trkSetRegion : W → T → Mat D → W × Option X
  /-- Method `TrackerBase::getRegion`. -/
  getRegion : W → T → Mat D
  /-- Destructor of a tracker, run when its `unique_ptr` is erased. -/
  destroy : W → T → W

/-- A call made to a collaborator; the argument is the session index used. -/
inductive Call where
  | readParams (config_dir : String)
  | getTracker
  | getPreProc
  | selectObjects
  | preProcInitialize (id : Nat)
  | setImage (id : Nat)
  | trackerInitialize (id : Nat)
  | preProcUpdate (id : Nat)
  | trackerUpdate (id : Nat)
  | trackerSetRegion (id : Nat)
  | getRegion (id : Nat)
  | destroy (id : Nat)
deriving DecidableEq

/-! ## Static state -/

/-- The `char*` static `config_root_dir`. It is null, or points to the string
literal of the default folder, or points to a buffer that `mxMalloc` returned.
The host releases such a buffer when the call that allocated it returns, so in
later calls the pointer dangles. -/
inductive ConfigDir where
  | null
  | literal (s : String)
  | allocated (s : String)
  | dangling
deriving DecidableEq

/-- The string a `char*` points to; `none` when there is nothing to read. -/
def ConfigDir.read : ConfigDir → Option String
  | .literal s => some s
  | .allocated s => some s
  | _ => none

/-- The static variables of `mexMTF.cc`, the state of the collaborators and the
history of calls made to them. -/
structure State (W T P D : Type) where
  trackers : List (Option T)
  pre_procs : List P
  min_x : D
  min_y : D
  max_x : D
  max_y : D
  size_x : D
  size_y : D
  img_height : Nat
  img_width : Nat
  frame_id : Nat
  tracker_id : Nat
  config_root_dir : ConfigDir
  tracker_created : Bool
  tracker_initialized : Bool
  world : W
  calls : List Call

/-- The state when the MEX file is loaded. -/
def State.init {W T P D : Type} [Zero D] (w : W) : State W T P D :=
  { trackers := [], pre_procs := [],
    min_x := 0, min_y := 0, max_x := 0, max_y := 0, size_x := 0, size_y := 0,
    img_height := 0, img_width := 0, frame_id := 0, tracker_id := 0,
    config_root_dir := .null, tracker_created := false, tracker_initialized := false,
    world := w, calls := [] }

/-- Record a call to a collaborator and the collaborator state it left. -/
def State.call {W T P D : Type} (s : State W T P D) (c : Call) (w : W) : State W T P D :=
  { s with world := w, calls := s.calls ++ [c] }

/-- How a call of `mexFunction` ends: it returns `*ret_val` and possibly `plhs[1]`,
it is aborted by `mexErrMsgTxt`, or its behaviour is undefined. What the host does
when it asked for an output that the call did not assign is not modelled. -/
inductive Outcome (D : Type) where
  | returned (ret_val : Nat) (region : Option (MxArray D))
  | error (e : MexError)
  | undefined
deriving DecidableEq

section Machine
variable {W T P X D : Type}

/-! ## Session operations -/

/-- The first statement of `createTracker`: a null `config_root_dir` is pointed to
the default folder. -/
def setDefaultConfig (s : State W T P D) : State W T P D :=
  match s.config_root_dir with
  | .null => { s with config_root_dir := .literal "../../Config" }
  | _ => s

/-- Function `createTracker`; `none` is undefined behaviour (the folder name is
read through a dangling pointer). -/
def createTracker (E : Engine W T P X D) (s : State W T P D) :
    State W T P D × Option Bool :=
  let s := setDefaultConfig s
  match s.config_root_dir.read with
  | none => (s, none)
  | some config_dir =>
    match E.readParams s.world config_dir with
    | (w, false) => (s.call (.readParams config_dir) w, some false)
    | (w, true) =>
      let s := s.call (.readParams config_dir) w
      match E.getTracker s.world with
      | (w, .error _) => (s.call .getTracker w, some false)
      | (w, .ok none) =>
        ({ s.call .getTracker w with trackers := s.trackers ++ [none] }, some false)
      | (w, .ok (some tracker)) =>
        let s := { s.call .getTracker w with trackers := s.trackers ++ [some tracker] }
        match E.getPreProc s.world tracker with
        | (w, .error _) => (s.call .getPreProc w, some false)
        | (w, .ok pre_proc) =>
          ({ s.call .getPreProc w with pre_procs := s.pre_procs ++ [pre_proc] }, some true)

/-- The loop of `initializeTracker` that hands the frame of every pre-processor
of the chain to the tracker; it stops at the first exception. -/
def setImages (E : Engine W T P X D) (tracker : T) (id : Nat) :
    List P → State W T P D → State W T P D × Option X
  | [], s => (s, none)
  | curr_obj :: rest, s =>
    match E.setImage s.world tracker curr_obj with
    | (w, some err) => (s.call (.setImage id) w, some err)
    | (w, none) => setImages E tracker id rest (s.call (.setImage id) w)

/-- Function `initializeTracker`; `none` is undefined behaviour. -/
def initializeTracker [Sub D] (E : Engine W T P X D) (s : State W T P D)
    (init_img : Mat uchar) (init_corners : Mat D) : State W T P D × Option Bool :=
  let s := { s with img_height := init_img.rows, img_width := init_img.cols }
  match forLoop 4 (fun corner_id (_ : Unit) =>
      match init_corners.at? 0 corner_id, init_corners.at? 1 corner_id with
      | some _, some _ => some ()
      | _, _ => none) () with
  | none => (s, none)
  | some _ =>
    match init_corners.at? 0 0, init_corners.at? 1 0,
        init_corners.at? 0 2, init_corners.at? 1 2 with
    | some min_x, some min_y, some max_x, some max_y =>
      let s := { s with min_x := min_x, min_y := min_y, max_x := max_x, max_y := max_y,
                        size_x := max_x - min_x, size_y := max_y - min_y }
      match s.pre_procs[s.tracker_id]? with
      | none => (s, none)
      | some pre_proc =>
        match E.ppInitialize s.world pre_proc init_img with
        | (w, some _) => (s.call (.preProcInitialize s.tracker_id) w, some false)
        | (w, none) =>
          let s := s.call (.preProcInitialize s.tracker_id) w
          match s.trackers[s.tracker_id]? with
          | some (some tracker) =>
            match setImages E tracker s.tracker_id
                (pre_proc :: E.ppChain s.world pre_proc) s with
            | (s, some _) => (s, some false)
            | (s, none) =>
              match E.trkInitialize s.world tracker init_corners with
              | (w, some _) => (s.call (.trackerInitialize s.tracker_id) w, some false)
              | (w, none) =>
                ({ s.call (.trackerInitialize s.tracker_id) w with frame_id := 0 }, some true)
          | _ => (s, none)
    | _, _, _, _ => (s, none)

/-- Function `updateTracker`; `none` is undefined behaviour. The counter
`frame_id` is an `int`, so `++frame_id` overflows when it holds `INT_MAX`. -/
def updateTracker (E : Engine W T P X D) (s : State W T P D) (curr_img : Mat uchar) :
    State W T P D × Option Bool :=
  match intResult (s.frame_id + 1) with
  | none => (s, none)
  | some frame_id =>
    let s := { s with frame_id := frame_id }
    match s.pre_procs[s.tracker_id]? with
    | none => (s, none)
    | some pre_proc =>
      match E.ppUpdate s.world pre_proc curr_img with
      | (w, some _) => (s.call (.preProcUpdate s.tracker_id) w, some false)
      | (w, none) =>
        let s := s.call (.preProcUpdate s.tracker_id) w
        match s.trackers[s.tracker_id]? with
        | some (some tracker) =>
          match E.trkUpdate s.world tracker with
          | (w, some _) => (s.call (.trackerUpdate s.tracker_id) w, some false)
          | (w, none) =>
            let s := s.call (.trackerUpdate s.tracker_id) w
            if E.reset_template s.world then
              let region := E.getRegion s.world tracker
              let s := s.call (.getRegion s.tracker_id) s.world
              match E.trkInitialize s.world tracker region with
              | (w, some _) => (s.call (.trackerInitialize s.tracker_id) w, some false)
              | (w, none) => (s.call (.trackerInitialize s.tracker_id) w, some true)
            else (s, some true)
        | _ => (s, none)

/-- Function `setRegion`; `none` is undefined behaviour. -/
def setRegion (E : Engine W T P X D) (s : State W T P D) (corners : Mat D) :
    State W T P D × Option Bool :=
  match s.trackers[s.tracker_id]? with
  | some (some tracker) =>
    match E.trkSetRegion s.world tracker corners with
    | (w, some _) => (s.call (.trackerSetRegion s.tracker_id) w, some false)
    | (w, none) => (s.call (.trackerSetRegion s.tracker_id) w, some true)
  | _ => (s, none)

/-- The expression `setCorners(trackers[tracker_id]->getRegion())`; `none` is
undefined behaviour. -/
def regionOutput [Zero D] (E : Engine W T P X D) (s : State W T P D) :
    Option (State W T P D × MxArray D) :=
  match s.trackers[s.tracker_id]? with
  | some (some tracker) =>
    match setCorners (E.getRegion s.world tracker) with
    | some mx_corners => some (s.call (.getRegion s.tracker_id) s.world, mx_corners)
    | none => none
  | _ => none

/-! ## Command dispatch -/

/-- Command identifiers `MEX_TRACKER_CREATE` .. `MEX_TRACKER_REMOVE`. -/
def MEX_TRACKER_CREATE : Nat := 1
def MEX_TRACKER_INITIALIZE : Nat := 2
def MEX_TRACKER_UPDATE : Nat := 3
def MEX_TRACKER_SET_REGION : Nat := 4
def MEX_TRACKER_REMOVE : Nat := 5

/-- The map `cmd_list` from command names to command identifiers. -/
def cmd_list : List (String × Nat) :=
  [("create", MEX_TRACKER_CREATE),
   ("initialize", MEX_TRACKER_INITIALIZE),
   ("update", MEX_TRACKER_UPDATE),
   ("set_region", MEX_TRACKER_SET_REGION),
   ("remove", MEX_TRACKER_REMOVE)]

/-- The statement `tracker_id = getTrackerID(prhs[i])`, guarded by `nrhs > i`. -/
def selectTrackerID (s : State W T P D) (prhs : List (MxArray D)) (i : Nat) : Res Nat :=
  if prhs.length > i then
    match prhs[i]? with
    | some mx_tracker_id => getTrackerID mx_tracker_id
    | none => .undefined
  else .ok s.tracker_id

/-- The assignment of the new active index after `create` and `remove`. -/
def lastTrackerID (s : State W T P D) : Nat :=
  if s.trackers.length = 0 then 0 else s.trackers.length - 1

/-- The assignment of `config_root_dir` in case `MEX_TRACKER_CREATE`, made when a
second argument is given: the folder name is copied into a buffer from `mxMalloc`. -/
def setConfigRoot (s : State W T P D) : Option String → State W T P D
  | some cfg_str => { s with config_root_dir := .allocated cfg_str }
  | none => s

/-- The return from `mexFunction` in case `MEX_TRACKER_CREATE`: the host releases
the buffer that `mxMalloc` returned during the call, and `config_root_dir` keeps
pointing to it. -/
def freeConfigRoot (s : State W T P D) : State W T P D :=
  match s.config_root_dir with
  | .allocated _ => { s with config_root_dir := .dangling }
  | _ => s

/-- Case `MEX_TRACKER_CREATE` of `mexFunction`. -/
def mexCreate (E : Engine W T P X D) (s : State W T P D) (prhs : List (MxArray D)) :
    State W T P D × Outcome D :=
  let cfg : Res (Option String) :=
    if prhs.length > 1 then
      match prhs[1]? with
      | some mx_cfg =>
        match mx_cfg.data with
        | .chars cfg_str => .ok (some (cString cfg_str))
        | _ => .error .createSecondArgNotString
      | none => .undefined
    else .ok none
  match cfg with
  | .error e => (s, .error e)
  | .undefined => (s, .undefined)
  | .ok cfg =>
    match createTracker E (setConfigRoot s cfg) with
    | (s, none) => (s, .undefined)
    | (s, some false) => (freeConfigRoot s, .returned 0 none)
    | (s, some true) =>
      let s := { s with tracker_created := true }
      (freeConfigRoot { s with tracker_id := lastTrackerID s }, .returned 1 none)

/-- The part of case `MEX_TRACKER_INITIALIZE` that obtains `init_corners`: from the
third argument when there is one, otherwise from interactive selection. -/
def initCorners (E : Engine W T P X D) (s : State W T P D) (prhs : List (MxArray D))
    (init_img : Mat uchar) : State W T P D × Res (Mat D) :=
  if prhs.length > 2 then
    match prhs[2]? with
    | some mx_corners => (s, getCorners mx_corners)
    | none => (s, .undefined)
  else
    match E.selectObjects s.world init_img with
    | (w, .error _) => (s.call .selectObjects w, .error .objectsException)
    | (w, .ok none) => (s.call .selectObjects w, .error .objectsNotObtained)
    | (w, .ok (some corners)) => (s.call .selectObjects w, .ok corners)

/-- Case `MEX_TRACKER_INITIALIZE` of `mexFunction`. -/
def mexInitialize [Zero D] [Sub D] (E : Engine W T P X D) (s : State W T P D) (nlhs : Nat)
    (prhs : List (MxArray D)) : State W T P D × Outcome D :=
  if nlhs ≠ 2 then (s, .error .initializeNeedsTwoOutputs)
  else if !s.tracker_created then (s, .error .mustBeCreated)
  else
    match selectTrackerID s prhs 3 with
    | .error e => (s, .error e)
    | .undefined => (s, .undefined)
    | .ok tracker_id =>
      let s := { s with tracker_id := tracker_id }
      match prhs[1]? with
      | none => (s, .undefined)
      | some mx_img =>
        match getImage mx_img with
        | .error e => (s, .error e)
        | .undefined => (s, .undefined)
        | .ok init_img =>
          match initCorners E s prhs init_img with
          | (s, .error e) => (s, .error e)
          | (s, .undefined) => (s, .undefined)
          | (s, .ok init_corners) =>
            match initializeTracker E s init_img init_corners with
            | (s, none) => (s, .undefined)
            | (s, some false) => (s, .returned 0 none)
            | (s, some true) =>
              match regionOutput E s with
              | none => (s, .undefined)
              | some (s, mx_corners) =>
                ({ s with tracker_initialized := true }, .returned 1 (some mx_corners))

/-- Case `MEX_TRACKER_UPDATE` of `mexFunction`. -/
def mexUpdate [Zero D] (E : Engine W T P X D) (s : State W T P D) (nlhs : Nat)
    (prhs : List (MxArray D)) : State W T P D × Outcome D :=
  if prhs.length < 2 then (s, .error .updateNeedsTwoInputs)
  else if nlhs ≠ 2 then (s, .error .updateNeedsTwoOutputs)
  else if !s.tracker_initialized then (s, .error .mustBeInitializedUpdate)
  else
    match selectTrackerID s prhs 2 with
    | .error e => (s, .error e)
    | .undefined => (s, .undefined)
    | .ok tracker_id =>
      let s := { s with tracker_id := tracker_id }
      if s.tracker_id ≥ s.trackers.length then
        (s, .error (.invalidTrackerID s.tracker_id s.trackers.length))
      else
        match prhs[1]? with
        | none => (s, .undefined)
        | some mx_img =>
          match getImage mx_img with
          | .error e => (s, .error e)
          | .undefined => (s, .undefined)
          | .ok curr_img =>
            match updateTracker E s curr_img with
            | (s, none) => (s, .undefined)
            | (s, some false) => (s, .returned 0 none)
            | (s, some true) =>
              match regionOutput E s with
              | none => (s, .undefined)
              | some (s, mx_corners) => (s, .returned 1 (some mx_corners))

/-- Case `MEX_TRACKER_SET_REGION` of `mexFunction`. -/
def mexSetRegion [Zero D] (E : Engine W T P X D) (s : State W T P D) (nlhs : Nat)
    (prhs : List (MxArray D)) : State W T P D × Outcome D :=
  if prhs.length < 2 then (s, .error .setRegionNeedsTwoInputs)
  else if nlhs ≠ 2 then (s, .error .setRegionNeedsTwoOutputs)
  else if !s.tracker_initialized then (s, .error .mustBeInitializedSetRegion)
  else
    match selectTrackerID s prhs 2 with
    | .error e => (s, .error e)
    | .undefined => (s, .undefined)
    | .ok tracker_id =>
      let s := { s with tracker_id := tracker_id }
      if s.tracker_id ≥ s.trackers.length then
        (s, .error (.invalidTrackerID s.tracker_id s.trackers.length))
      else
        match prhs[1]? with
        | none => (s, .undefined)
        | some mx_corners =>
          match getCorners mx_corners with
          | .error e => (s, .error e)
          | .undefined => (s, .undefined)
          | .ok curr_corners =>
            match setRegion E s curr_corners with
            | (s, none) => (s, .undefined)
            | (s, some false) => (s, .returned 0 none)
            | (s, some true) =>
              match regionOutput E s with
              | none => (s, .undefined)
              | some (s, mx_corners) => (s, .returned 1 (some mx_corners))

/-- The statement `trackers.erase(trackers.begin() + tracker_id)`: the tracker
owned by the erased slot, if any, is destroyed and later slots move down. -/
def eraseTracker (E : Engine W T P X D) (s : State W T P D) : State W T P D :=
  let s := match s.trackers[s.tracker_id]? with
    | some (some tracker) => s.call (.destroy s.tracker_id) (E.destroy s.world tracker)
    | _ => s
  { s with trackers := s.trackers.eraseIdx s.tracker_id }

/-- Case `MEX_TRACKER_REMOVE` of `mexFunction`. -/
def mexRemove (E : Engine W T P X D) (s : State W T P D) (nlhs : Nat)
    (prhs : List (MxArray D)) : State W T P D × Outcome D :=
  if nlhs ≠ 1 then (s, .error .removeNeedsOneOutput)
  else
    match selectTrackerID s prhs 1 with
    | .error e => (s, .error e)
    | .undefined => (s, .undefined)
    | .ok tracker_id =>
      let s := { s with tracker_id := tracker_id }
      if s.tracker_id ≥ s.trackers.length then
        (s, .error (.invalidTrackerID s.tracker_id s.trackers.length))
      else
        let s := eraseTracker E s
        ({ s with tracker_id := lastTrackerID s }, .returned 1 none)

/-- Function `mexFunction`: one call from the host, with `nlhs` requested outputs
and the arguments `prhs`. -/
def mexFunction [Zero D] [Sub D] (E : Engine W T P X D) (s : State W T P D) (nlhs : Nat)
    (prhs : List (MxArray D)) : State W T P D × Outcome D :=
  match prhs[0]? with
  | none => (s, .error .notEnoughInputs)
  | some mx_cmd =>
    match mx_cmd.data with
    | .chars host_str =>
      let cmd_str := cString host_str
      match cmd_list.lookup cmd_str with
      | none => (s, .error (.invalidCommand cmd_str))
      | some cmd_id =>
        if cmd_id = MEX_TRACKER_CREATE then mexCreate E s prhs
        else if cmd_id = MEX_TRACKER_INITIALIZE then mexInitialize E s nlhs prhs
        else if cmd_id = MEX_TRACKER_UPDATE then mexUpdate E s nlhs prhs
        else if cmd_id = MEX_TRACKER_SET_REGION then mexSetRegion E s nlhs prhs
        else if cmd_id = MEX_TRACKER_REMOVE then mexRemove E s nlhs prhs
        else (s, .error (.invalidCommand cmd_str))
    | _ => (s, .error .firstArgNotString)

/-! ## Command sequences -/

/-- One call from the host. -/
structure Request (D : Type) where
  nlhs : Nat
  prhs : List (MxArray D)

/-- The state after a sequence of calls. A call whose behaviour is undefined leaves
the state it had when the fault occurred. -/
def run [Zero D] [Sub D] (E : Engine W T P X D) (s : State W T P D) :
    List (Request D) → State W T P D
  | [] => s
  | r :: rest => run E (mexFunction E s r.nlhs r.prhs).1 rest

/-- The outcomes of a sequence of calls, in order. -/
def outcomes [Zero D] [Sub D] (E : Engine W T P X D) (s : State W T P D) :
    List (Request D) → List (Outcome D)
  | [] => []
  | r :: rest =>
    (mexFunction E s r.nlhs r.prhs).2 :: outcomes E (mexFunction E s r.nlhs r.prhs).1 rest

end Machine
/-! ## A concrete engine, to run the commands on concrete inputs -/

/-- State of the concrete engine: the configuration folder read last, the number
of trackers built so far, and the region last given to each tracker. -/
structure DemoWorld where
  config : String
  built : Nat
  regions : List (Nat × Mat Int)
deriving DecidableEq

/-- A concrete engine. Trackers are numbered in creation order and the
pre-processor built for tracker `t` carries the number `t`. The configuration
folder selects how the factories behave; a tracker reports as its region the one
it was last given. -/
def demoEngine : Engine DemoWorld Nat Nat String Int where
  readParams w dir := ({ w with config := dir }, decide (dir ≠ "missing"))
  reset_template _ := false
  getTracker w :=
    if w.config = "null_tracker" then (w, .ok none)
    else if w.config = "throwing_tracker" then (w, .error "tracker")
    else ({ w with built := w.built + 1 }, .ok (some w.built))
  getPreProc w t :=
    if w.config = "throwing_pre_proc" then (w, .error "pre processor") else (w, .ok t)
  selectObjects w _ := (w, .ok none)
  ppInitialize w _ _ := (w, none)
  ppChain _ _ := []
  setImage w _ _ := (w, none)
  trkInitialize w t corners := ({ w with regions := (t, corners) :: w.regions }, none)
  ppUpdate w _ _ := (w, none)
  trkUpdate w _ := (w, none)
  trkSetRegion w t corners := ({ w with regions := (t, corners) :: w.regions }, none)
  getRegion w t :=
    (w.regions.lookup t).getD { rows := 2, cols := 4, channels := 1, data := List.replicate 8 0 }
  destroy w _ := w

/-- The concrete engine before any call. -/
def demoWorld : DemoWorld := { config := "", built := 0, regions := [] }

/-- The state of the MEX file when it is loaded with the concrete engine. -/
def demoInit : State DemoWorld Nat Nat Int := State.init demoWorld

/-- A host string. -/
def mxString (s : String) : MxArray Int := { dims := [1, s.length], data := .chars s }

/-- A host uint32 scalar. -/
def mxUint32 (n : Nat) : MxArray Int := { dims := [1, 1], data := .uint32 [n] }

/-- A `2 x 2` grayscale host image. -/
def demoImage : MxArray Int := { dims := [2, 2], data := .uint8 [10, 20, 30, 40] }

/-- The host region with corners (10,10), (50,10), (50,50), (10,50). -/
def demoRegion : MxArray Int :=
  { dims := [2, 4], data := .double [10, 10, 50, 10, 50, 50, 10, 50] }

/-! ## Notions used to state the properties of command sequences -/

section SpecDefs
variable {W T P X D : Type}

/-- The command name that `mexFunction` reads from the first argument of a call, if
it is a string: the C string `cmd_str`. -/
def commandOf (prhs : List (MxArray D)) : Option String :=
  match prhs[0]? with
  | some mx_cmd =>
    match mx_cmd.data with
    | .chars host_str => some (cString host_str)
    | _ => none
  | none => none

/-- The static variables that commands consult to select and to admit a session:
the registry, the active index, the lifecycle flags and the configuration folder. -/
def State.statics (s : State W T P D) :
    List (Option T) × List P × Nat × Bool × Bool × ConfigDir :=
  (s.trackers, s.pre_procs, s.tracker_id, s.tracker_created, s.tracker_initialized,
    s.config_root_dir)

/-- The call returned with status 1.0. -/
def Outcome.succeeded : Outcome D → Bool
  | .returned ret_val _ => ret_val = 1
  | _ => false

/-- The active index is a valid index into `trackers`, or `trackers` is empty and
the index is 0. -/
def ActiveIndexValid (s : State W T P D) : Prop :=
  s.tracker_id < s.trackers.length ∨ (s.trackers = [] ∧ s.tracker_id = 0)

/-- The session at index `i`: the tracker and the pre-processor found there. -/
def State.session (s : State W T P D) (i : Nat) : Option (Option T × P) :=
  match s.trackers[i]?, s.pre_procs[i]? with
  | some tracker, some pre_proc => some (tracker, pre_proc)
  | _, _ => none

/-- Each call of a sequence with the state it ran in and its outcome. -/
def history [Zero D] [Sub D] (E : Engine W T P X D) (s : State W T P D) :
    List (Request D) → List (State W T P D × Request D × Outcome D)
  | [] => []
  | r :: rest =>
    (s, r, (mexFunction E s r.nlhs r.prhs).2) ::
      history E (mexFunction E s r.nlhs r.prhs).1 rest

/-- Lifecycle state of a session as the specification describes it. -/
inductive Lifecycle where
  | Created
  | Initialized
deriving DecidableEq

/-- The session index a call selects: the explicit argument at position `i` when
given, otherwise the active index. -/
def targetOf (s : State W T P D) (prhs : List (MxArray D)) (i : Nat) : Nat :=
  match selectTrackerID s prhs i with
  | .ok tracker_id => tracker_id
  | _ => s.tracker_id

/-- Per-session lifecycle bookkeeping that follows the specification: a
successful `create` appends a session in state `Created`, a successful
`initialize` moves the session it selects to `Initialized`, a successful `remove`
deletes the session it selects; nothing else changes a lifecycle state. -/
def specLifecycle [Zero D] [Sub D] (E : Engine W T P X D) :
    State W T P D → List (Request D) → List Lifecycle → List Lifecycle
  | _, [], l => l
  | s, r :: rest, l =>
    let o := (mexFunction E s r.nlhs r.prhs).2
    let l' :=
      if o.succeeded then
        if commandOf r.prhs = some "create" then l ++ [Lifecycle.Created]
        else if commandOf r.prhs = some "initialize" then
          l.set (targetOf s r.prhs 3) Lifecycle.Initialized
        else if commandOf r.prhs = some "remove" then l.eraseIdx (targetOf s r.prhs 1)
        else l
      else l
    specLifecycle E (mexFunction E s r.nlhs r.prhs).1 rest l'

end SpecDefs

section ClaimDefs
variable {W T P X D : Type}

/-- The reading of the lifecycle rule in which the state is kept per session, for
the state reached from `s0` by the calls `reqs`: every call of `update` or
`set_region` with two requested outputs and at least two inputs that selects a
session which the bookkeeping of the specification has in state `Created` is
aborted with the error of a tracker that is not initialized and makes no call to
a collaborator. -/
def PerSessionLifecycleEnforced [Zero D] [Sub D] (E : Engine W T P X D) (s0 : State W T P D)
    (reqs : List (Request D)) : Prop :=
  ∀ (i : Nat) (prhs : List (MxArray D)),
    (specLifecycle E s0 reqs [])[i]? = some Lifecycle.Created →
    (commandOf prhs = some "update" ∨ commandOf prhs = some "set_region") →
    2 ≤ prhs.length →
    targetOf (run E s0 reqs) prhs 2 = i →
    ((mexFunction E (run E s0 reqs) 2 prhs).2 = .error .mustBeInitializedUpdate ∨
      (mexFunction E (run E s0 reqs) 2 prhs).2 = .error .mustBeInitializedSetRegion) ∧
    (mexFunction E (run E s0 reqs) 2 prhs).1.calls = (run E s0 reqs).calls

end ClaimDefs

/-! ## Session transitions as the specification describes them -/

section SpecTransitions
variable {W T P X D : Type}

/-- The specification's step "hand the processed frame(s) to the engine": every
pre-processor of the chain gives its frame to the tracker, in order, until one of
these calls fails. Returns the collaborator state and whether all succeeded. -/
def specSetImages (E : Engine W T P X D) (tracker : T) : List P → W → W × Bool
  | [], w => (w, true)
  | pre_proc :: rest, w =>
    match E.setImage w tracker pre_proc with
    | (w, some _) => (w, false)
    | (w, none) => specSetImages E tracker rest w

/-- Transition `initialize(session, frame, region)` of the specification: the frame
is fed through the session's pre-processing pipeline, then the tracker is
initialized with the processed frame(s) and the region. Returns the collaborator
state and whether the pipeline and the engine succeeded. -/
def specInitialize (E : Engine W T P X D) (w : W) (pre_proc : P) (tracker : T)
    (frame : Mat uchar) (region : Mat D) : W × Bool :=
  match E.ppInitialize w pre_proc frame with
  | (w, some _) => (w, false)
  | (w, none) =>
    match specSetImages E tracker (pre_proc :: E.ppChain w pre_proc) w with
    | (w, false) => (w, false)
    | (w, true) =>
      match E.trkInitialize w tracker region with
      | (w, some _) => (w, false)
      | (w, none) => (w, true)

/-- Transition `update(session, frame)` of the specification: the frame is pushed
through the pre-processing pipeline, then the tracker advances by one step, then,
under the re-seed policy, the tracker is initialized again from the region it has
just produced. Returns the collaborator state and whether the pipeline and the
engine succeeded. -/
def specUpdate (E : Engine W T P X D) (w : W) (pre_proc : P) (tracker : T)
    (frame : Mat uchar) : W × Bool :=
  match E.ppUpdate w pre_proc frame with
  | (w, some _) => (w, false)
  | (w, none) =>
    match E.trkUpdate w tracker with
    | (w, some _) => (w, false)
    | (w, none) =>
      if E.reset_template w then
        match E.trkInitialize w tracker (E.getRegion w tracker) with
        | (w, some _) => (w, false)
        | (w, none) => (w, true)
      else (w, true)

/-- Transition `set_region(session, region)` of the specification: the tracker is
told to use the region. Returns the collaborator state and whether the engine
succeeded. -/
def specSetRegion (E : Engine W T P X D) (w : W) (tracker : T) (region : Mat D) : W × Bool :=
  match E.trkSetRegion w tracker region with
  | (w, some _) => (w, false)
  | (w, none) => (w, true)

/-- The call returned to the host, with either status. -/
def Outcome.isReturned : Outcome D → Bool
  | .returned _ _ => true
  | _ => false

end SpecTransitions

/-- The concrete engine with a tracker whose `update` always throws. -/
def demoEngineFailingUpdate : Engine DemoWorld Nat Nat String Int :=
  { demoEngine with trkUpdate := fun w _ => (w, some "update") }

/-! ## Loop lemmas -/

section Loops
variable {α : Type}

theorem foldlM_flatMap_option {ι κ σ : Type} (f : σ → κ → Option σ) (g : ι → List κ)
    (l : List ι) (s : σ) :
    (l.flatMap g).foldlM f s = l.foldlM (fun acc a => (g a).foldlM f acc) s := by
  induction l generalizing s with
  | nil => rfl
  | cons a l ih =>
    simp only [List.flatMap_cons, List.foldlM_append, List.foldlM_cons]
    cases h : (g a).foldlM f s with
    | none => rfl
    | some s1 => simpa using ih s1

theorem mem_copyIterations {n_channels n_cols n_rows : Nat} {it : Nat × Nat × Nat} :
    it ∈ copyIterations n_channels n_cols n_rows ↔
      it.1 < n_channels ∧ it.2.1 < n_cols ∧ it.2.2 < n_rows := by
  obtain ⟨c, x, y⟩ := it
  simp only [copyIterations, List.mem_flatMap, List.mem_range, List.mem_map, Prod.mk.injEq]
  constructor
  · rintro ⟨c', hc, x', hx, y', hy, rfl, rfl, rfl⟩
    exact ⟨hc, hx, hy⟩
  · rintro ⟨hc, hx, hy⟩
    exact ⟨c, hc, x, hx, y, hy, rfl, rfl, rfl⟩


theorem intResult_eq_some {v u : Nat} : intResult v = some u ↔ u = v ∧ v ≤ INT_MAX := by
  unfold intResult
  split
  · rename_i h
    constructor
    · intro h1
      exact ⟨(Option.some.inj h1).symm, h⟩
    · rintro ⟨rfl, _⟩
      rfl
  · rename_i h
    constructor
    · intro h1
      cases h1
    · rintro ⟨_, h1⟩
      exact absurd h1 h

theorem intResult_of_le {v : Nat} (h : v ≤ INT_MAX) : intResult v = some v :=
  intResult_eq_some.2 ⟨rfl, h⟩

/-- An index that `_A3D_IDX_COLUMN_MAJOR` yields is the exact value of the macro. -/
theorem column_major_some {i j k nrows ncols v : Nat}
    (h : _A3D_IDX_COLUMN_MAJOR i j k nrows ncols = some v) :
    v = columnMajorIndex i j k nrows ncols ∧ v ≤ INT_MAX := by
  unfold _A3D_IDX_COLUMN_MAJOR at h
  simp only [Option.bind_eq_some, intResult_eq_some] at h
  obtain ⟨a, ⟨rfl, _⟩, b, ⟨rfl, _⟩, c, ⟨rfl, _⟩, rfl, hv⟩ := h
  exact ⟨rfl, hv⟩

/-- `_A3D_IDX_COLUMN_MAJOR` yields its exact value when that fits an `int`. -/
theorem column_major_of_le {i j k nrows ncols : Nat} (h0 : 0 < nrows)
    (h : columnMajorIndex i j k nrows ncols ≤ INT_MAX) :
    _A3D_IDX_COLUMN_MAJOR i j k nrows ncols = some (columnMajorIndex i j k nrows ncols) := by
  unfold columnMajorIndex at h
  have h3 : (j + k * ncols) * nrows ≤ INT_MAX := by omega
  have h2 : j + k * ncols ≤ INT_MAX := le_trans (Nat.le_mul_of_pos_right _ h0) h3
  have h1 : k * ncols ≤ INT_MAX := by omega
  simp [_A3D_IDX_COLUMN_MAJOR, columnMajorIndex, intResult_of_le, h, h1, h2, h3]

/-- An index that `_A3D_IDX_OPENCV` yields is the exact value of the macro. -/
theorem opencv_some {i j k nrows ncols nchannels v : Nat}
    (h : _A3D_IDX_OPENCV i j k nrows ncols nchannels = some v) :
    v = opencvIndex i j k ncols nchannels ∧ v ≤ INT_MAX := by
  unfold _A3D_IDX_OPENCV at h
  simp only [Option.bind_eq_some, intResult_eq_some] at h
  obtain ⟨a, ⟨rfl, _⟩, b, ⟨rfl, _⟩, c, ⟨rfl, _⟩, rfl, hv⟩ := h
  exact ⟨rfl, hv⟩

/-- `_A3D_IDX_OPENCV` yields its exact value when that fits an `int`. -/
theorem opencv_of_le {i j k nrows ncols nchannels : Nat} (h0 : 0 < nchannels)
    (h : opencvIndex i j k ncols nchannels ≤ INT_MAX) :
    _A3D_IDX_OPENCV i j k nrows ncols nchannels = some (opencvIndex i j k ncols nchannels) := by
  unfold opencvIndex at h
  have h3 : (i * ncols + j) * nchannels ≤ INT_MAX := by omega
  have h2 : i * ncols + j ≤ INT_MAX := le_trans (Nat.le_mul_of_pos_right _ h0) h3
  have h1 : i * ncols ≤ INT_MAX := by omega
  simp [_A3D_IDX_OPENCV, opencvIndex, intResult_of_le, h, h1, h2, h3]

theorem copyMatrixFromMatlab_eq_fold (from_ : List α) (to_ : Mat α) (n_channels : Nat) :
    copyMatrixFromMatlab from_ to_ n_channels =
      ((copyIterations n_channels to_.cols to_.rows).foldlM
        (fun pdata it =>
          copyBody from_ (_A3D_IDX_COLUMN_MAJOR it.2.2 it.2.1 it.1 to_.rows to_.cols)
            (_A3D_IDX_OPENCV it.2.2 it.2.1 it.1 to_.rows to_.cols n_channels) pdata)
        to_.data).map (fun pdata => { to_ with data := pdata }) := by
  simp only [copyMatrixFromMatlab, forLoop, copyIterations, foldlM_flatMap_option,
    List.foldlM_map, copyBody]

theorem copyBody_some {from_ : List α} {r w : Option Nat} {p q : List α}
    (h : copyBody from_ r w p = some q) :
    ∃ rn wn, r = some rn ∧ w = some wn ∧ copyStep from_ rn wn p = some q := by
  cases r with
  | none => simp [copyBody] at h
  | some rn =>
    cases w with
    | none =>
      unfold copyBody at h
      split at h <;> cases h
    | some wn => exact ⟨rn, wn, rfl, rfl, h⟩

theorem copyBody_eq_copyStep (from_ : List α) (rn wn : Nat) (p : List α) :
    copyBody from_ (some rn) (some wn) p = copyStep from_ rn wn p := rfl

/-- A run of the loop body that does not fault is a run of checked copies at the
exact values of the indices, none of which overflowed. -/
theorem fold_copyBody_some {ι : Type} (from_ : List α) (r w : ι → Option Nat)
    (rn wn : ι → Nat) (its : List ι)
    (hr : ∀ it ∈ its, ∀ v, r it = some v → v = rn it)
    (hw : ∀ it ∈ its, ∀ v, w it = some v → v = wn it) (p0 p1 : List α)
    (h : its.foldlM (fun pdata it => copyBody from_ (r it) (w it) pdata) p0 = some p1) :
    its.foldlM (fun pdata it => copyStep from_ (rn it) (wn it) pdata) p0 = some p1 ∧
    ∀ it ∈ its, r it = some (rn it) ∧ w it = some (wn it) := by
  induction its generalizing p0 with
  | nil => exact ⟨h, fun it hit => nomatch hit⟩
  | cons it its ih =>
    simp only [List.foldlM_cons] at h ⊢
    cases hs : copyBody from_ (r it) (w it) p0 with
    | none => simp [hs] at h
    | some p =>
      rw [hs] at h
      simp only [Option.some_bind, bind] at h
      obtain ⟨a, b, ha, hb, hstep⟩ := copyBody_some hs
      have ea := hr it (List.mem_cons_self _ _) a ha
      have eb := hw it (List.mem_cons_self _ _) b hb
      subst ea eb
      obtain ⟨h1, h2⟩ := ih (fun it' hit' => hr it' (List.mem_cons_of_mem _ hit'))
        (fun it' hit' => hw it' (List.mem_cons_of_mem _ hit')) p h
      refine ⟨by rw [hstep]; exact h1, ?_⟩
      intro it' hit'
      rcases List.mem_cons.1 hit' with rfl | hmem
      · exact ⟨ha, hb⟩
      · exact h2 it' hmem

/-- When no index overflows, the loop body is a checked copy at the exact values
of the indices. -/
theorem fold_copyBody_eq {ι : Type} (from_ : List α) (r w : ι → Option Nat)
    (rn wn : ι → Nat) (its : List ι)
    (h : ∀ it ∈ its, r it = some (rn it) ∧ w it = some (wn it)) (p0 : List α) :
    its.foldlM (fun pdata it => copyBody from_ (r it) (w it) pdata) p0 =
      its.foldlM (fun pdata it => copyStep from_ (rn it) (wn it) pdata) p0 := by
  induction its generalizing p0 with
  | nil => rfl
  | cons it its ih =>
    simp only [List.foldlM_cons]
    obtain ⟨h1, h2⟩ := h it (List.mem_cons_self _ _)
    rw [h1, h2, copyBody_eq_copyStep]
    cases copyStep from_ (rn it) (wn it) p0 with
    | none => rfl
    | some p => exact ih (fun it' hit' => h it' (List.mem_cons_of_mem _ hit')) p

/-- A run of checked copies that does not fault keeps the length of the
destination, and every destination cell either holds what some iteration copied
there or was never written. -/
theorem copy_fold_spec {ι : Type} (from_ : List α) (r w : ι → Nat) (its : List ι)
    (p0 p1 : List α)
    (h : its.foldlM (fun pdata it => copyStep from_ (r it) (w it) pdata) p0 = some p1) :
    p1.length = p0.length ∧
    (∀ it ∈ its, r it < from_.length ∧ w it < p0.length) ∧
    ∀ k, (∃ it ∈ its, w it = k ∧ p1[k]? = from_[r it]?) ∨
         ((∀ it ∈ its, w it ≠ k) ∧ p1[k]? = p0[k]?) := by
  induction its generalizing p0 with
  | nil =>
    simp only [List.foldlM_nil, pure, Option.some.injEq] at h
    subst h
    simp
  | cons it its ih =>
    simp only [List.foldlM_cons] at h
    cases hs : copyStep from_ (r it) (w it) p0 with
    | none => simp [hs] at h
    | some p =>
      rw [hs] at h
      simp only [Option.some_bind, bind] at h
      have hstep := hs
      unfold copyStep at hstep
      cases hr : from_[r it]? with
      | none => simp [hr] at hstep
      | some e =>
        simp only [hr] at hstep
        split at hstep
        · rename_i hw
          simp only [Option.some.injEq] at hstep
          subst hstep
          obtain ⟨hlen, hb, hk⟩ := ih _ h
          have hrlt : r it < from_.length := by
            by_contra hc
            rw [List.getElem?_eq_none (by omega)] at hr
            cases hr
          refine ⟨by simpa using hlen, ?_, ?_⟩
          · intro it' hit'
            rcases List.mem_cons.1 hit' with rfl | hmem
            · exact ⟨hrlt, hw⟩
            · simpa using hb it' hmem
          · intro k
            rcases hk k with ⟨it', hmem, hwk, hval⟩ | ⟨hne, hval⟩
            · exact Or.inl ⟨it', List.mem_cons_of_mem _ hmem, hwk, hval⟩
            · by_cases hkw : w it = k
              · left
                refine ⟨it, List.mem_cons_self _ _, hkw, ?_⟩
                rw [hval, hr, ← hkw, List.getElem?_set]
                simp [hw]
              · right
                refine ⟨?_, ?_⟩
                · intro it' hit'
                  rcases List.mem_cons.1 hit' with rfl | hmem
                  · exact hkw
                  · exact hne it' hmem
                · rw [hval, List.getElem?_set]
                  simp [hkw]
        · cases hstep

/-- A run of checked copies whose reads and writes are all in range does not
fault. -/
theorem copy_fold_isSome {ι : Type} (from_ : List α) (r w : ι → Nat) (its : List ι)
    (p0 : List α) (hb : ∀ it ∈ its, r it < from_.length ∧ w it < p0.length) :
    ∃ p1, its.foldlM (fun pdata it => copyStep from_ (r it) (w it) pdata) p0 = some p1 := by
  induction its generalizing p0 with
  | nil => exact ⟨p0, rfl⟩
  | cons it its ih =>
    obtain ⟨hr, hw⟩ := hb it (List.mem_cons_self _ _)
    have hs : copyStep from_ (r it) (w it) p0 = some (p0.set (w it) from_[r it]) := by
      simp [copyStep, List.getElem?_eq_getElem hr, hw]
    obtain ⟨p1, hp1⟩ := ih (p0.set (w it) from_[r it]) (by
      intro it' hit'
      simpa using hb it' (List.mem_cons_of_mem _ hit'))
    exact ⟨p1, by simp [List.foldlM_cons, hs, hp1]⟩


theorem div_mod_unique {n a b a' b' : Nat} (hb : b < n) (hb' : b' < n)
    (h : a * n + b = a' * n + b') : a = a' ∧ b = b' := by
  have h1 : (a * n + b) / n = a := by
    rw [Nat.mul_comm, Nat.mul_add_div (by omega), Nat.div_eq_of_lt hb, Nat.add_zero]
  have h2 : (a' * n + b') / n = a' := by
    rw [Nat.mul_comm, Nat.mul_add_div (by omega), Nat.div_eq_of_lt hb', Nat.add_zero]
  have ha : a = a' := by rw [← h1, ← h2, h]
  subst ha
  exact ⟨rfl, by omega⟩

theorem opencv_index_injective {n_cols n_channels y x c y' x' c' : Nat}
    (hx : x < n_cols) (hx' : x' < n_cols) (hc : c < n_channels) (hc' : c' < n_channels)
    (h : opencvIndex y x c n_cols n_channels = opencvIndex y' x' c' n_cols n_channels) :
    y = y' ∧ x = x' ∧ c = c' := by
  unfold opencvIndex at h
  obtain ⟨h1, h2⟩ := div_mod_unique hc hc' h
  obtain ⟨h3, h4⟩ := div_mod_unique hx hx' h1
  exact ⟨h3, h4, h2⟩

theorem opencv_index_lt {n_rows n_cols n_channels y x c : Nat}
    (hy : y < n_rows) (hx : x < n_cols) (hc : c < n_channels) :
    opencvIndex y x c n_cols n_channels < n_rows * n_cols * n_channels := by
  unfold opencvIndex
  have h1 : y * n_cols + x + 1 ≤ n_rows * n_cols := by
    calc y * n_cols + x + 1 ≤ y * n_cols + n_cols := by omega
      _ = (y + 1) * n_cols := by ring
      _ ≤ n_rows * n_cols := Nat.mul_le_mul_right _ hy
  calc (y * n_cols + x) * n_channels + c < (y * n_cols + x) * n_channels + n_channels := by omega
    _ = (y * n_cols + x + 1) * n_channels := by ring
    _ ≤ n_rows * n_cols * n_channels := Nat.mul_le_mul_right _ h1

theorem column_major_index_lt {n_rows n_cols n_channels y x c : Nat}
    (hy : y < n_rows) (hx : x < n_cols) (hc : c < n_channels) :
    columnMajorIndex y x c n_rows n_cols < n_rows * n_cols * n_channels := by
  unfold columnMajorIndex
  have h1 : x + c * n_cols + 1 ≤ n_channels * n_cols := by
    calc x + c * n_cols + 1 ≤ c * n_cols + n_cols := by omega
      _ = (c + 1) * n_cols := by ring
      _ ≤ n_channels * n_cols := Nat.mul_le_mul_right _ hc
  calc y + (x + c * n_cols) * n_rows < (x + c * n_cols) * n_rows + n_rows := by omega
    _ = (x + c * n_cols + 1) * n_rows := by ring
    _ ≤ n_channels * n_cols * n_rows := Nat.mul_le_mul_right _ h1
    _ = n_rows * n_cols * n_channels := by ring

/-- What `copyMatrixFromMatlab` leaves in the destination when it does not fault:
no index overflowed, every read and write was in range, and every destination
cell holds the source element that the index remap assigns to it. -/
theorem copyMatrixFromMatlab_spec (from_ : List α) (to_ out : Mat α) (n_channels : Nat)
    (h : copyMatrixFromMatlab from_ to_ n_channels = some out) :
    out.rows = to_.rows ∧ out.cols = to_.cols ∧ out.channels = to_.channels ∧
    out.data.length = to_.data.length ∧
    ∀ y x c, y < to_.rows → x < to_.cols → c < n_channels →
      _A3D_IDX_COLUMN_MAJOR y x c to_.rows to_.cols =
        some (columnMajorIndex y x c to_.rows to_.cols) ∧
      _A3D_IDX_OPENCV y x c to_.rows to_.cols n_channels =
        some (opencvIndex y x c to_.cols n_channels) ∧
      columnMajorIndex y x c to_.rows to_.cols < from_.length ∧
      opencvIndex y x c to_.cols n_channels < to_.data.length ∧
      out.data[opencvIndex y x c to_.cols n_channels]? =
        from_[columnMajorIndex y x c to_.rows to_.cols]? := by
  rw [copyMatrixFromMatlab_eq_fold] at h
  cases hf : (copyIterations n_channels to_.cols to_.rows).foldlM
        (fun pdata it =>
          copyBody from_ (_A3D_IDX_COLUMN_MAJOR it.2.2 it.2.1 it.1 to_.rows to_.cols)
            (_A3D_IDX_OPENCV it.2.2 it.2.1 it.1 to_.rows to_.cols n_channels) pdata)
        to_.data with
  | none => simp [hf] at h
  | some p1 =>
    rw [hf] at h
    simp only [Option.map_some', Option.some.injEq] at h
    subst h
    obtain ⟨hf2, hidx⟩ := fold_copyBody_some from_
      (fun it : Nat × Nat × Nat => _A3D_IDX_COLUMN_MAJOR it.2.2 it.2.1 it.1 to_.rows to_.cols)
      (fun it : Nat × Nat × Nat =>
        _A3D_IDX_OPENCV it.2.2 it.2.1 it.1 to_.rows to_.cols n_channels)
      (fun it : Nat × Nat × Nat => columnMajorIndex it.2.2 it.2.1 it.1 to_.rows to_.cols)
      (fun it : Nat × Nat × Nat => opencvIndex it.2.2 it.2.1 it.1 to_.cols n_channels)
      _ (fun _ _ v hv => (column_major_some hv).1) (fun _ _ v hv => (opencv_some hv).1)
      _ _ hf
    obtain ⟨hlen, hb, hk⟩ := copy_fold_spec from_
      (fun it : Nat × Nat × Nat => columnMajorIndex it.2.2 it.2.1 it.1 to_.rows to_.cols)
      (fun it : Nat × Nat × Nat => opencvIndex it.2.2 it.2.1 it.1 to_.cols n_channels)
      _ _ _ hf2
    refine ⟨rfl, rfl, rfl, hlen, ?_⟩
    intro y x c hy hx hc
    have hmem : (c, x, y) ∈ copyIterations n_channels to_.cols to_.rows :=
      mem_copyIterations.2 ⟨hc, hx, hy⟩
    obtain ⟨hr, hw⟩ := hb _ hmem
    obtain ⟨hi1, hi2⟩ := hidx _ hmem
    refine ⟨hi1, hi2, hr, hw, ?_⟩
    rcases hk (opencvIndex y x c to_.cols n_channels) with
      ⟨it, hit, hwk, hval⟩ | ⟨hne, _⟩
    · obtain ⟨hc', hx', hy'⟩ := mem_copyIterations.1 hit
      obtain ⟨e1, e2, e3⟩ := opencv_index_injective hx' hx hc' hc hwk
      rw [hval, e1, e2, e3]
    · exact absurd rfl (hne _ hmem)

/-- The copy does not fault when source and destination both hold
`rows * cols * n_channels` elements or more and every index fits an `int`. -/
theorem copyMatrixFromMatlab_isSome (from_ : List α) (to_ : Mat α) (n_channels : Nat)
    (hfrom : to_.rows * to_.cols * n_channels ≤ from_.length)
    (hto : to_.rows * to_.cols * n_channels ≤ to_.data.length)
    (hint : to_.rows * to_.cols * n_channels ≤ INT_MAX + 1) :
    ∃ out, copyMatrixFromMatlab from_ to_ n_channels = some out := by
  rw [copyMatrixFromMatlab_eq_fold]
  rw [fold_copyBody_eq from_ _ _
    (fun it : Nat × Nat × Nat => columnMajorIndex it.2.2 it.2.1 it.1 to_.rows to_.cols)
    (fun it : Nat × Nat × Nat => opencvIndex it.2.2 it.2.1 it.1 to_.cols n_channels)
    _ (by
      intro it hit
      obtain ⟨hc, hx, hy⟩ := mem_copyIterations.1 hit
      have h1 := column_major_index_lt hy hx hc
      have h2 := opencv_index_lt hy hx hc
      exact ⟨column_major_of_le (by omega) (by omega),
        opencv_of_le (by omega) (by omega)⟩)]
  obtain ⟨p1, hp1⟩ := copy_fold_isSome from_
    (fun it : Nat × Nat × Nat => columnMajorIndex it.2.2 it.2.1 it.1 to_.rows to_.cols)
    (fun it : Nat × Nat × Nat => opencvIndex it.2.2 it.2.1 it.1 to_.cols n_channels)
    (copyIterations n_channels to_.cols to_.rows) to_.data (by
      intro it hit
      obtain ⟨hc, hx, hy⟩ := mem_copyIterations.1 hit
      exact ⟨lt_of_lt_of_le (column_major_index_lt hy hx hc) hfrom,
        lt_of_lt_of_le (opencv_index_lt hy hx hc) hto⟩)
  exact ⟨_, by rw [hp1]; rfl⟩

/-- The copy faults when the exact value of some index exceeds `INT_MAX`. -/
theorem copyMatrixFromMatlab_overflow (from_ : List α) (to_ : Mat α) (n_channels : Nat)
    (y x c : Nat) (hy : y < to_.rows) (hx : x < to_.cols) (hc : c < n_channels)
    (hbig : INT_MAX < columnMajorIndex y x c to_.rows to_.cols) :
    copyMatrixFromMatlab from_ to_ n_channels = none := by
  cases h : copyMatrixFromMatlab from_ to_ n_channels with
  | none => rfl
  | some out =>
    obtain ⟨_, _, _, _, h5⟩ := copyMatrixFromMatlab_spec _ _ _ _ h
    obtain ⟨h1, _⟩ := h5 y x c hy hx hc
    have := (column_major_some h1).2
    omega

theorem mapM_option_spec {β γ : Type} (f : β → Option γ) (l : List β) (out : List γ)
    (h : l.mapM f = some out) :
    out.length = l.length ∧ ∀ i, i < l.length → out[i]? = (l[i]?).bind f := by
  induction l generalizing out with
  | nil =>
    rw [List.mapM_nil] at h
    cases h
    simp
  | cons a l ih =>
    rw [List.mapM_cons] at h
    cases ha : f a with
    | none => rw [ha] at h; cases h
    | some b =>
      cases hl : l.mapM f with
      | none => rw [ha, hl] at h; cases h
      | some bs =>
        rw [ha, hl] at h
        cases h
        obtain ⟨hlen, hget⟩ := ih bs hl
        refine ⟨by simp [hlen], ?_⟩
        intro i hi
        cases i with
        | zero => simp [ha]
        | succ j =>
          simp only [List.length_cons, Nat.add_lt_add_iff_right] at hi
          simpa using hget j hi

theorem mapM_option_isSome {β γ : Type} (f : β → Option γ) (l : List β)
    (h : ∀ a ∈ l, ∃ b, f a = some b) : ∃ out, l.mapM f = some out := by
  induction l with
  | nil => exact ⟨[], rfl⟩
  | cons a l ih =>
    obtain ⟨b, hb⟩ := h a (List.mem_cons_self _ _)
    obtain ⟨bs, hbs⟩ := ih (fun a' ha' => h a' (List.mem_cons_of_mem _ ha'))
    exact ⟨b :: bs, by rw [List.mapM_cons, hb, hbs]; rfl⟩

/-- Every matrix that `cv_transpose` returns is the transpose of its argument. -/
theorem cv_transpose_spec (src dst : Mat α) (h : cv_transpose src = some dst) :
    dst.rows = src.cols ∧ dst.cols = src.rows ∧ dst.channels = src.channels ∧
    dst.data.length = src.cols * src.rows ∧
    ∀ i j, i < src.cols → j < src.rows →
      j * src.cols + i < src.data.length ∧
      dst.data[i * src.rows + j]? = src.data[j * src.cols + i]? := by
  unfold cv_transpose at h
  cases hm : (List.range (src.cols * src.rows)).mapM
      (fun k => src.data[(k % src.rows) * src.cols + k / src.rows]?) with
  | none => rw [hm] at h; cases h
  | some d =>
    rw [hm] at h
    simp only [Option.map_some', Option.some.injEq] at h
    subst h
    obtain ⟨hlen, hget⟩ := mapM_option_spec _ _ _ hm
    simp only [List.length_range] at hlen hget
    refine ⟨rfl, rfl, rfl, hlen, ?_⟩
    intro i j hi hj
    have hk : i * src.rows + j < src.cols * src.rows := by
      calc i * src.rows + j < i * src.rows + src.rows := by omega
        _ = (i + 1) * src.rows := by ring
        _ ≤ src.cols * src.rows := Nat.mul_le_mul_right _ hi
    have hv := hget _ hk
    have hmod : (i * src.rows + j) % src.rows = j := by
      rw [Nat.add_comm, Nat.add_mul_mod_self_right, Nat.mod_eq_of_lt hj]
    have hdiv : (i * src.rows + j) / src.rows = i := by
      rw [Nat.add_comm, Nat.add_mul_div_right _ _ (by omega), Nat.div_eq_of_lt hj, Nat.zero_add]
    rw [List.getElem?_range hk] at hv
    simp only [Option.some_bind, hmod, hdiv] at hv
    refine ⟨?_, hv⟩
    have hd : i * src.rows + j < d.length := by omega
    rw [List.getElem?_eq_getElem hd] at hv
    by_contra hc
    rw [List.getElem?_eq_none (Nat.le_of_not_lt hc)] at hv
    cases hv

/-- The transpose does not fault when the source holds `rows * cols` elements. -/
theorem cv_transpose_isSome (src : Mat α) (h : src.rows * src.cols ≤ src.data.length) :
    ∃ dst, cv_transpose src = some dst := by
  obtain ⟨d, hd⟩ := mapM_option_isSome
    (fun k => src.data[(k % src.rows) * src.cols + k / src.rows]?)
    (List.range (src.cols * src.rows)) (by
      intro k hk
      rw [List.mem_range] at hk
      have hr : 0 < src.rows := by
        rcases Nat.eq_zero_or_pos src.rows with h0 | h0
        · rw [h0] at hk; simp at hk
        · exact h0
      have h1 : k / src.rows < src.cols := by
        rw [Nat.div_lt_iff_lt_mul hr]; exact hk
      have h2 : k % src.rows < src.rows := Nat.mod_lt _ hr
      have h3 : (k % src.rows) * src.cols + k / src.rows < src.rows * src.cols := by
        calc (k % src.rows) * src.cols + k / src.rows
            < (k % src.rows) * src.cols + src.cols := by omega
          _ = (k % src.rows + 1) * src.cols := by ring
          _ ≤ src.rows * src.cols := Nat.mul_le_mul_right _ h2
      exact ⟨_, List.getElem?_eq_getElem (by omega)⟩)
  exact ⟨_, by unfold cv_transpose; rw [hd]; rfl⟩

end Loops

/-! ## Image decode -/

theorem toInt_of_le {n : Nat} (h : n ≤ INT_MAX) : toInt n = (n : Int) := by
  unfold toInt
  unfold INT_MAX at h ⊢
  have h1 : n % 4294967296 = n := Nat.mod_eq_of_lt (by omega)
  rw [h1, if_pos h]

theorem getImage_color_eq {D : Type} (rows cols d : Nat) (img_ptr : List uchar)
    (hrows : rows ≤ INT_MAX) (hcols : cols ≤ INT_MAX) :
    getImage (D := D) ⟨[rows, cols, d], .uint8 img_ptr⟩ =
      Res.ofOption (copyMatrixFromMatlab img_ptr
        { rows := rows, cols := cols, channels := 3,
          data := List.replicate (rows * cols * 3) 0 } 3) := by
  simp [getImage, toInt_of_le hrows, toInt_of_le hcols]

theorem getImage_gray_eq_of_toInt {D : Type} (H W h w : Nat) (img_ptr : List uchar)
    (hH : toInt H = (h : Int)) (hW : toInt W = (w : Int)) :
    getImage (D := D) ⟨[H, W], .uint8 img_ptr⟩ =
      Res.ofOption (cv_transpose { rows := w, cols := h, channels := 1, data := img_ptr }) := by
  simp [getImage, hH, hW]

theorem getImage_gray_eq {D : Type} (H W : Nat) (img_ptr : List uchar)
    (hH : H ≤ INT_MAX) (hW : W ≤ INT_MAX) :
    getImage (D := D) ⟨[H, W], .uint8 img_ptr⟩ =
      Res.ofOption (cv_transpose { rows := W, cols := H, channels := 1, data := img_ptr }) :=
  getImage_gray_eq_of_toInt H W H W img_ptr (toInt_of_le hH) (toInt_of_le hW)

theorem cv_transpose_single {α : Type} (a : α) (rest : List α) (n_channels : Nat) :
    cv_transpose { rows := 1, cols := 1, channels := n_channels, data := a :: rest } =
      some { rows := 1, cols := 1, channels := n_channels, data := [a] } := by
  have hr : List.range (1 * 1) = [0] := by decide
  unfold cv_transpose
  dsimp only
  rw [hr, List.mapM_cons, List.mapM_nil]
  have h0 : (a :: rest)[0 % 1 * 1 + 0 / 1]? = some a := by
    have : 0 % 1 * 1 + 0 / 1 = 0 := by decide
    rw [this]
    simp
  rw [h0]
  rfl

/-- C1 as stated does not hold for every frame size: a `32768 x 32768 x 3` uint8 buffer
with all its `3221225472` samples passes the checks of `getImage`, but in the
iteration of row 0, column 0, channel 2 the exact read index is `2^31`, one more
than `INT_MAX`, so the macro overflows and no frame is returned. -/
theorem getImage_large_frame_overflows :
    (⟨[32768, 32768, 3], .uint8 (List.replicate 3221225472 0)⟩ : MxArray Int).numel =
      (List.replicate 3221225472 (0 : uchar)).length ∧
    (2, 0, 0) ∈ copyIterations 3 32768 32768 ∧
    columnMajorIndex 0 0 2 32768 32768 = INT_MAX + 1 ∧
    _A3D_IDX_COLUMN_MAJOR 0 0 2 32768 32768 = none ∧
    getImage (D := Int) ⟨[32768, 32768, 3], .uint8 (List.replicate 3221225472 0)⟩ =
      .undefined := by
  refine ⟨?_, mem_copyIterations.2 (by decide), by decide, by decide, ?_⟩
  · rw [List.length_replicate]
    decide
  · rw [getImage_color_eq 32768 32768 3 _ (by decide) (by decide),
      copyMatrixFromMatlab_overflow _ _ 3 0 0 2 (by decide) (by decide) (by decide)
        (by decide)]
    rfl

/-- C1, amended. Color image decode for frames that fit `int` indexing: for dimensions
`rows x cols x d` with `rows` and `cols` at most `INT_MAX`, `getImage` returns a
frame whenever the buffer holds at least three planes and `rows * cols * 3` is at
most `2^31`, and every frame it returns has `rows` rows, `cols` columns, 3 channels
and `output[(row*cols+col)*3+ch] = input[row + col*rows + ch*rows*cols]`. -/
theorem getImage_color_index_remap {D : Type} (rows cols d : Nat) (img_ptr : List uchar)
    (hrows : rows ≤ INT_MAX) (hcols : cols ≤ INT_MAX) :
    (3 ≤ d → img_ptr.length = rows * cols * d → rows * cols * 3 ≤ INT_MAX + 1 →
      ∃ img, getImage (D := D) ⟨[rows, cols, d], .uint8 img_ptr⟩ = .ok img) ∧
    ∀ img, getImage (D := D) ⟨[rows, cols, d], .uint8 img_ptr⟩ = .ok img →
      img.rows = rows ∧ img.cols = cols ∧ img.channels = 3 ∧
      ∀ row col ch, row < rows → col < cols → ch < 3 →
        ∃ v, img_ptr[row + col * rows + ch * rows * cols]? = some v ∧
          img.data[(row * cols + col) * 3 + ch]? = some v := by
  rw [getImage_color_eq rows cols d img_ptr hrows hcols]
  constructor
  · intro hd hlen hint
    obtain ⟨out, hout⟩ := copyMatrixFromMatlab_isSome img_ptr
      { rows := rows, cols := cols, channels := 3,
        data := List.replicate (rows * cols * 3) (0 : uchar) } 3
      (by simp only [hlen]; exact Nat.mul_le_mul_left _ hd) (by simp) hint
    exact ⟨out, by rw [hout]; rfl⟩
  · intro img himg
    cases hc : copyMatrixFromMatlab img_ptr
        { rows := rows, cols := cols, channels := 3,
          data := List.replicate (rows * cols * 3) (0 : uchar) } 3 with
    | none => rw [hc] at himg; cases himg
    | some out =>
      rw [hc] at himg
      simp only [Res.ofOption, Res.ok.injEq] at himg
      subst himg
      obtain ⟨h1, h2, h3, _, h5⟩ := copyMatrixFromMatlab_spec _ _ _ _ hc
      refine ⟨h1, h2, h3, ?_⟩
      intro row col ch hrow hcol hch
      obtain ⟨_, _, hr, _, hval⟩ := h5 row col ch hrow hcol hch
      simp only [columnMajorIndex, opencvIndex] at hr hval
      have hidx : row + col * rows + ch * rows * cols = row + (col + ch * cols) * rows := by ring
      rw [hidx]
      exact ⟨img_ptr[row + (col + ch * cols) * rows], List.getElem?_eq_getElem hr,
        by rw [hval, List.getElem?_eq_getElem hr]⟩

theorem getImage_color_index_remap_witness :
    (∃ img, getImage (D := Int) ⟨[2, 1, 3], .uint8 [0, 1, 2, 3, 4, 5]⟩ = .ok img) ∧
    ((⟨2, 1, 3, [0, 2, 4, 1, 3, 5]⟩ : Mat uchar).rows = 2 ∧
      (⟨2, 1, 3, [0, 2, 4, 1, 3, 5]⟩ : Mat uchar).cols = 1 ∧
      (⟨2, 1, 3, [0, 2, 4, 1, 3, 5]⟩ : Mat uchar).channels = 3 ∧
      ∀ row col ch, row < 2 → col < 1 → ch < 3 →
        ∃ v, ([0, 1, 2, 3, 4, 5] : List uchar)[row + col * 2 + ch * 2 * 1]? = some v ∧
          (⟨2, 1, 3, [0, 2, 4, 1, 3, 5]⟩ : Mat uchar).data[(row * 1 + col) * 3 + ch]? = some v) :=
  ⟨(getImage_color_index_remap (D := Int) 2 1 3 [0, 1, 2, 3, 4, 5] (by decide) (by decide)).1
      (by decide) rfl (by decide),
    (getImage_color_index_remap (D := Int) 2 1 3 [0, 1, 2, 3, 4, 5] (by decide) (by decide)).2 _
      (by decide)⟩

/-- C2 as stated does not hold for every `H`: for a `4294967297 x 1` uint8 buffer with
all its samples the height is converted to the `int` 1, and the frame returned
has one row. -/
theorem getImage_truncates_height :
    (⟨[4294967297, 1], .uint8 (7 :: List.replicate 4294967296 0)⟩ : MxArray Int).numel =
      (7 :: List.replicate 4294967296 (0 : uchar)).length ∧
    toInt 4294967297 = 1 ∧
    getImage (D := Int) ⟨[4294967297, 1], .uint8 (7 :: List.replicate 4294967296 0)⟩ =
      .ok ⟨1, 1, 1, [7]⟩ := by
  refine ⟨?_, by decide, ?_⟩
  · rw [List.length_cons, List.length_replicate]
    decide
  · rw [getImage_gray_eq_of_toInt 4294967297 1 1 1 _ (by decide) (by decide),
      cv_transpose_single]
    rfl

/-- C2, amended. Grayscale image decode for dimensions that fit an `int`: for `H` and `W`
at most `INT_MAX`, `getImage` on a 2-D uint8 buffer with dimensions `H x W`
returns a frame whenever the buffer holds `H * W` samples; every frame it returns
has `H` rows, `W` columns, one channel and `output[r*W + c] = input[r + c*H]`,
which is the color index remap taken with one channel. -/
theorem getImage_grayscale_transpose {D : Type} (H W : Nat) (img_ptr : List uchar)
    (hH : H ≤ INT_MAX) (hW : W ≤ INT_MAX) :
    (img_ptr.length = H * W →
      ∃ img, getImage (D := D) ⟨[H, W], .uint8 img_ptr⟩ = .ok img) ∧
    ∀ img, getImage (D := D) ⟨[H, W], .uint8 img_ptr⟩ = .ok img →
      img.rows = H ∧ img.cols = W ∧ img.channels = 1 ∧ img.data.length = H * W ∧
      ∀ r c, r < H → c < W →
        (∃ v, img_ptr[r + c * H]? = some v ∧ img.data[r * W + c]? = some v) ∧
        img.data[opencvIndex r c 0 W 1]? = img_ptr[columnMajorIndex r c 0 H W]? := by
  rw [getImage_gray_eq H W img_ptr hH hW]
  constructor
  · intro hlen
    obtain ⟨dst, hdst⟩ := cv_transpose_isSome
      ({ rows := W, cols := H, channels := 1, data := img_ptr } : Mat uchar)
      (by simp only [hlen]; exact le_of_eq (Nat.mul_comm _ _))
    exact ⟨dst, by rw [hdst]; rfl⟩
  · intro img himg
    cases hc : cv_transpose ({ rows := W, cols := H, channels := 1, data := img_ptr } : Mat uchar) with
    | none => rw [hc] at himg; cases himg
    | some dst =>
      rw [hc] at himg
      simp only [Res.ofOption, Res.ok.injEq] at himg
      subst himg
      obtain ⟨h1, h2, h3, h4, h5⟩ := cv_transpose_spec _ _ hc
      refine ⟨h1, h2, h3, h4, ?_⟩
      intro r c hr hcW
      obtain ⟨hlt, hval⟩ := h5 r c hr hcW
      simp only at hlt hval
      have hidx : r + c * H = c * H + r := Nat.add_comm _ _
      refine ⟨⟨img_ptr[c * H + r], ?_, ?_⟩, ?_⟩
      · rw [hidx]; exact List.getElem?_eq_getElem hlt
      · rw [hval]; exact List.getElem?_eq_getElem hlt
      · simp only [opencvIndex, columnMajorIndex, Nat.mul_one, Nat.add_zero,
          Nat.zero_mul]
        rw [hval, hidx]

theorem getImage_grayscale_transpose_witness :
    (∃ img, getImage (D := Int) ⟨[2, 3], .uint8 [0, 1, 2, 3, 4, 5]⟩ = .ok img) ∧
    ((⟨2, 3, 1, [0, 2, 4, 1, 3, 5]⟩ : Mat uchar).rows = 2 ∧
      (⟨2, 3, 1, [0, 2, 4, 1, 3, 5]⟩ : Mat uchar).cols = 3 ∧
      (⟨2, 3, 1, [0, 2, 4, 1, 3, 5]⟩ : Mat uchar).channels = 1 ∧
      (⟨2, 3, 1, [0, 2, 4, 1, 3, 5]⟩ : Mat uchar).data.length = 2 * 3 ∧
      ∀ r c, r < 2 → c < 3 →
        (∃ v, ([0, 1, 2, 3, 4, 5] : List uchar)[r + c * 2]? = some v ∧
          (⟨2, 3, 1, [0, 2, 4, 1, 3, 5]⟩ : Mat uchar).data[r * 3 + c]? = some v) ∧
        (⟨2, 3, 1, [0, 2, 4, 1, 3, 5]⟩ : Mat uchar).data[opencvIndex r c 0 3 1]? =
          ([0, 1, 2, 3, 4, 5] : List uchar)[columnMajorIndex r c 0 2 3]?) :=
  ⟨(getImage_grayscale_transpose (D := Int) 2 3 [0, 1, 2, 3, 4, 5] (by decide) (by decide)).1 rfl,
    (getImage_grayscale_transpose (D := Int) 2 3 [0, 1, 2, 3, 4, 5] (by decide) (by decide)).2 _
      (by decide)⟩


/-! ## Region marshaling -/

section Regions
variable {D : Type}

/-- Transposing twice gives back a matrix whose buffer holds exactly
`rows * cols` elements. -/
theorem cv_transpose_involutive {α : Type} (src dst : Mat α)
    (h : cv_transpose src = some dst) (hlen : src.data.length = src.rows * src.cols) :
    cv_transpose dst = some src := by
  obtain ⟨h1, h2, h3, h4, h5⟩ := cv_transpose_spec src dst h
  obtain ⟨back, hback⟩ := cv_transpose_isSome dst (by rw [h1, h2, h4])
  obtain ⟨k1, k2, k3, k4, k5⟩ := cv_transpose_spec dst back hback
  rw [hback]
  have hdata : back.data = src.data := by
    apply List.ext_getElem?
    intro k
    by_cases hk : k < src.rows * src.cols
    · have hc : 0 < src.cols := by
        rcases Nat.eq_zero_or_pos src.cols with h0 | h0
        · rw [h0] at hk; simp at hk
        · exact h0
      have hi : k / src.cols < src.rows := by
        rw [Nat.div_lt_iff_lt_mul hc]; exact hk
      have hj : k % src.cols < src.cols := Nat.mod_lt _ hc
      have hkk : k / src.cols * src.cols + k % src.cols = k := by
        rw [Nat.mul_comm]; exact Nat.div_add_mod k src.cols
      have e1 := (k5 (k / src.cols) (k % src.cols) (by rw [h2]; exact hi)
        (by rw [h1]; exact hj)).2
      have e2 := (h5 (k % src.cols) (k / src.cols) hj hi).2
      rw [h1, h2] at e1
      rw [hkk] at e1 e2
      rw [e1, e2]
    · rw [List.getElem?_eq_none (by rw [k4, h1, h2]; omega),
        List.getElem?_eq_none (by rw [hlen]; omega)]
  cases src with
  | mk r c ch d =>
    cases back with
    | mk r' c' ch' d' =>
      simp only at k1 k2 k3 hdata h1 h2 h3
      simp only [Option.some.injEq, Mat.mk.injEq]
      exact ⟨by rw [k1, h2], by rw [k2, h1], by rw [k3, h3], hdata⟩

end Regions

/-- C3. Region decode keeps coordinates and corner order: for a host `2 x 4` double
matrix `M` stored column-major in `b` (`M(i,j) = b[i + 2*j]`), `getCorners` returns a
`2 x 4` region `R` with `R(i,j) = M(i,j)` for `i < 2`, `j < 4`. -/
theorem getCorners_preserves_corners {D : Type} (b : List D) (hb : b.length = 8) :
    ∃ R, getCorners ⟨[2, 4], .double b⟩ = .ok R ∧
      R.rows = 2 ∧ R.cols = 4 ∧ R.channels = 1 ∧ R.data.length = 8 ∧
      ∀ i j, i < 2 → j < 4 → ∃ v, b[i + 2 * j]? = some v ∧ R.at? i j = some v := by
  have hget : getCorners (D := D) ⟨[2, 4], .double b⟩ =
      Res.ofOption (cv_transpose { rows := 4, cols := 2, channels := 1, data := b }) := by
    simp [getCorners]
  obtain ⟨R, hR⟩ := cv_transpose_isSome
    ({ rows := 4, cols := 2, channels := 1, data := b } : Mat D) (by simp [hb])
  obtain ⟨h1, h2, h3, h4, h5⟩ := cv_transpose_spec _ _ hR
  simp only at h1 h2 h3 h4 h5
  refine ⟨R, by rw [hget, hR]; rfl, h1, h2, h3, h4, ?_⟩
  intro i j hi hj
  obtain ⟨hlt, hval⟩ := h5 i j hi hj
  have hidx : i + 2 * j = j * 2 + i := by omega
  refine ⟨b[j * 2 + i], by rw [hidx]; exact List.getElem?_eq_getElem hlt, ?_⟩
  rw [Mat.at?, h2, hval]
  exact List.getElem?_eq_getElem hlt

theorem getCorners_preserves_corners_witness :
    ∃ R, getCorners (D := Int) ⟨[2, 4], .double [10, 10, 50, 10, 50, 50, 10, 50]⟩ = .ok R ∧
      R.rows = 2 ∧ R.cols = 4 ∧ R.channels = 1 ∧ R.data.length = 8 ∧
      ∀ i j, i < 2 → j < 4 →
        ∃ v, [(10 : Int), 10, 50, 10, 50, 50, 10, 50][i + 2 * j]? = some v ∧ R.at? i j = some v :=
  getCorners_preserves_corners _ rfl


/-! ## Which static variables each operation can change -/

section Frames
variable {W T P X D : Type}

theorem mexFunction_dispatch [Zero D] [Sub D] (E : Engine W T P X D) (s : State W T P D)
    (nlhs : Nat) (prhs : List (MxArray D)) :
    (commandOf prhs = some "create" ∧ mexFunction E s nlhs prhs = mexCreate E s prhs) ∨
    (commandOf prhs = some "initialize" ∧
      mexFunction E s nlhs prhs = mexInitialize E s nlhs prhs) ∨
    (commandOf prhs = some "update" ∧ mexFunction E s nlhs prhs = mexUpdate E s nlhs prhs) ∨
    (commandOf prhs = some "set_region" ∧
      mexFunction E s nlhs prhs = mexSetRegion E s nlhs prhs) ∨
    (commandOf prhs = some "remove" ∧ mexFunction E s nlhs prhs = mexRemove E s nlhs prhs) ∨
    (commandOf prhs ≠ some "create" ∧ commandOf prhs ≠ some "initialize" ∧
      commandOf prhs ≠ some "update" ∧ commandOf prhs ≠ some "set_region" ∧
      commandOf prhs ≠ some "remove" ∧ ∃ e, mexFunction E s nlhs prhs = (s, .error e)) := by
  unfold mexFunction commandOf
  cases h0 : prhs[0]? with
  | none => simp
  | some mx_cmd =>
    cases hd : mx_cmd.data with
    | chars host_str =>
      simp only [hd]
      generalize cString host_str = cmd_str
      by_cases h1 : cmd_str = "create"
      · subst h1; left; exact ⟨rfl, rfl⟩
      by_cases h2 : cmd_str = "initialize"
      · subst h2; right; left; exact ⟨rfl, rfl⟩
      by_cases h3 : cmd_str = "update"
      · subst h3; right; right; left; exact ⟨rfl, rfl⟩
      by_cases h4 : cmd_str = "set_region"
      · subst h4; right; right; right; left; exact ⟨rfl, rfl⟩
      by_cases h5 : cmd_str = "remove"
      · subst h5; right; right; right; right; left; exact ⟨rfl, rfl⟩
      right; right; right; right; right
      have b1 : (cmd_str == "create") = false := beq_eq_false_iff_ne.2 h1
      have b2 : (cmd_str == "initialize") = false := beq_eq_false_iff_ne.2 h2
      have b3 : (cmd_str == "update") = false := beq_eq_false_iff_ne.2 h3
      have b4 : (cmd_str == "set_region") = false := beq_eq_false_iff_ne.2 h4
      have b5 : (cmd_str == "remove") = false := beq_eq_false_iff_ne.2 h5
      have hl : cmd_list.lookup cmd_str = none := by
        simp only [cmd_list, List.lookup, b1, b2, b3, b4, b5]
      simp [hl, h1, h2, h3, h4, h5]
    | uint8 p => simp [hd]
    | uint32 p => simp [hd]
    | double p => simp [hd]
    | other => simp [hd]

theorem mexFunction_update [Zero D] [Sub D] (E : Engine W T P X D) (s : State W T P D)
    (nlhs : Nat) (prhs : List (MxArray D)) (hc : commandOf prhs = some "update") :
    mexFunction E s nlhs prhs = mexUpdate E s nlhs prhs := by
  rcases mexFunction_dispatch E s nlhs prhs with
    ⟨h0, _⟩ | ⟨h0, _⟩ | ⟨_, h⟩ | ⟨h0, _⟩ | ⟨h0, _⟩ | ⟨_, _, h0, _⟩
  · rw [hc] at h0; exact absurd h0 (by decide)
  · rw [hc] at h0; exact absurd h0 (by decide)
  · exact h
  · rw [hc] at h0; exact absurd h0 (by decide)
  · rw [hc] at h0; exact absurd h0 (by decide)
  · exact absurd hc h0

theorem mexFunction_set_region [Zero D] [Sub D] (E : Engine W T P X D) (s : State W T P D)
    (nlhs : Nat) (prhs : List (MxArray D)) (hc : commandOf prhs = some "set_region") :
    mexFunction E s nlhs prhs = mexSetRegion E s nlhs prhs := by
  rcases mexFunction_dispatch E s nlhs prhs with
    ⟨h0, _⟩ | ⟨h0, _⟩ | ⟨h0, _⟩ | ⟨_, h⟩ | ⟨h0, _⟩ | ⟨_, _, _, h0, _⟩
  · rw [hc] at h0; exact absurd h0 (by decide)
  · rw [hc] at h0; exact absurd h0 (by decide)
  · rw [hc] at h0; exact absurd h0 (by decide)
  · exact h
  · rw [hc] at h0; exact absurd h0 (by decide)
  · exact absurd hc h0

theorem mexFunction_create [Zero D] [Sub D] (E : Engine W T P X D) (s : State W T P D)
    (nlhs : Nat) (prhs : List (MxArray D)) (hc : commandOf prhs = some "create") :
    mexFunction E s nlhs prhs = mexCreate E s prhs := by
  rcases mexFunction_dispatch E s nlhs prhs with
    ⟨_, h⟩ | ⟨h0, _⟩ | ⟨h0, _⟩ | ⟨h0, _⟩ | ⟨h0, _⟩ | ⟨h0, _⟩
  · exact h
  · rw [hc] at h0; exact absurd h0 (by decide)
  · rw [hc] at h0; exact absurd h0 (by decide)
  · rw [hc] at h0; exact absurd h0 (by decide)
  · rw [hc] at h0; exact absurd h0 (by decide)
  · exact absurd hc h0

theorem setImages_statics (E : Engine W T P X D) (tracker : T) (id : Nat) (ps : List P)
    (s : State W T P D) : (setImages E tracker id ps s).1.statics = s.statics := by
  induction ps generalizing s with
  | nil => rfl
  | cons p ps ih =>
    unfold setImages
    split
    · rfl
    · rw [ih]; rfl

theorem initializeTracker_statics [Sub D] (E : Engine W T P X D) (s : State W T P D)
    (init_img : Mat uchar) (init_corners : Mat D) :
    (initializeTracker E s init_img init_corners).1.statics = s.statics := by
  unfold initializeTracker
  dsimp only
  repeat' split
  all_goals first
    | rfl
    | (have h := ‹setImages E _ _ _ _ = _›
       have h2 := congrArg (fun r : State W T P D × Option X => r.1.statics) h
       dsimp only at h2
       rw [setImages_statics] at h2
       simp only [State.statics, State.call] at h2 ⊢
       rw [← h2])

theorem updateTracker_statics (E : Engine W T P X D) (s : State W T P D)
    (curr_img : Mat uchar) : (updateTracker E s curr_img).1.statics = s.statics := by
  unfold updateTracker
  dsimp only
  repeat' split
  all_goals rfl

theorem setRegion_statics (E : Engine W T P X D) (s : State W T P D) (corners : Mat D) :
    (setRegion E s corners).1.statics = s.statics := by
  unfold setRegion
  repeat' split
  all_goals rfl

theorem regionOutput_statics [Zero D] (E : Engine W T P X D) (s s' : State W T P D)
    (mx : MxArray D) (h : regionOutput E s = some (s', mx)) : s'.statics = s.statics := by
  unfold regionOutput at h
  repeat' split at h
  all_goals first
    | (cases h; rfl)
    | cases h

end Frames

/-! ## The lifecycle flag `tracker_initialized` -/

section Flags
variable {W T P X D : Type}

theorem initializeTracker_statics_of_eq [Sub D] {E : Engine W T P X D} {s s' : State W T P D}
    {init_img : Mat uchar} {init_corners : Mat D} {r : Option Bool}
    (h : initializeTracker E s init_img init_corners = (s', r)) : s'.statics = s.statics := by
  have := initializeTracker_statics E s init_img init_corners
  rw [h] at this
  exact this

theorem updateTracker_statics_of_eq {E : Engine W T P X D} {s s' : State W T P D}
    {curr_img : Mat uchar} {r : Option Bool}
    (h : updateTracker E s curr_img = (s', r)) : s'.statics = s.statics := by
  have := updateTracker_statics E s curr_img
  rw [h] at this
  exact this

theorem setRegion_statics_of_eq {E : Engine W T P X D} {s s' : State W T P D}
    {corners : Mat D} {r : Option Bool}
    (h : setRegion E s corners = (s', r)) : s'.statics = s.statics := by
  have := setRegion_statics E s corners
  rw [h] at this
  exact this

theorem setDefaultConfig_fields (s : State W T P D) :
    (setDefaultConfig s).trackers = s.trackers ∧
    (setDefaultConfig s).pre_procs = s.pre_procs ∧
    (setDefaultConfig s).tracker_id = s.tracker_id ∧
    (setDefaultConfig s).tracker_created = s.tracker_created ∧
    (setDefaultConfig s).tracker_initialized = s.tracker_initialized := by
  unfold setDefaultConfig
  split <;> exact ⟨rfl, rfl, rfl, rfl, rfl⟩

theorem createTracker_flags (E : Engine W T P X D) (s : State W T P D) :
    (createTracker E s).1.tracker_id = s.tracker_id ∧
    (createTracker E s).1.tracker_created = s.tracker_created ∧
    (createTracker E s).1.tracker_initialized = s.tracker_initialized := by
  obtain ⟨_, _, h3, h4, h5⟩ := setDefaultConfig_fields s
  unfold createTracker
  dsimp only
  repeat' split
  all_goals exact ⟨h3, h4, h5⟩

theorem createTracker_flags_of_eq {E : Engine W T P X D} {s s' : State W T P D}
    {b : Option Bool}
    (h : createTracker E s = (s', b)) :
    s'.tracker_id = s.tracker_id ∧ s'.tracker_created = s.tracker_created ∧
    s'.tracker_initialized = s.tracker_initialized := by
  have := createTracker_flags E s
  rw [h] at this
  exact this

theorem setConfigRoot_fields (s : State W T P D) (cfg : Option String) :
    (setConfigRoot s cfg).trackers = s.trackers ∧
    (setConfigRoot s cfg).pre_procs = s.pre_procs ∧
    (setConfigRoot s cfg).tracker_id = s.tracker_id ∧
    (setConfigRoot s cfg).tracker_created = s.tracker_created ∧
    (setConfigRoot s cfg).tracker_initialized = s.tracker_initialized := by
  cases cfg <;> exact ⟨rfl, rfl, rfl, rfl, rfl⟩

theorem freeConfigRoot_fields (s : State W T P D) :
    (freeConfigRoot s).trackers = s.trackers ∧
    (freeConfigRoot s).pre_procs = s.pre_procs ∧
    (freeConfigRoot s).tracker_id = s.tracker_id ∧
    (freeConfigRoot s).tracker_created = s.tracker_created ∧
    (freeConfigRoot s).tracker_initialized = s.tracker_initialized := by
  unfold freeConfigRoot
  split <;> exact ⟨rfl, rfl, rfl, rfl, rfl⟩

theorem mexCreate_tracker_initialized (E : Engine W T P X D) (s : State W T P D)
    (prhs : List (MxArray D)) :
    (mexCreate E s prhs).1.tracker_initialized = s.tracker_initialized := by
  unfold mexCreate
  dsimp only
  repeat' split
  all_goals first
    | rfl
    | (obtain ⟨-, -, h3⟩ := createTracker_flags_of_eq ‹createTracker E _ = _›
       dsimp only
       first
         | (rw [(freeConfigRoot_fields _).2.2.2.2, h3]
            exact (setConfigRoot_fields _ _).2.2.2.2)
         | (rw [h3]
            exact (setConfigRoot_fields _ _).2.2.2.2))

theorem mexUpdate_tracker_initialized [Zero D] (E : Engine W T P X D) (s : State W T P D)
    (nlhs : Nat) (prhs : List (MxArray D)) :
    (mexUpdate E s nlhs prhs).1.tracker_initialized = s.tracker_initialized := by
  unfold mexUpdate
  dsimp only
  repeat' split
  all_goals first
    | rfl
    | (have h1 := updateTracker_statics_of_eq ‹updateTracker E _ _ = _›
       first
         | (have h2 := regionOutput_statics E _ _ _ ‹regionOutput E _ = _›
            simp only [State.statics, Prod.mk.injEq] at h1 h2
            rw [h2.2.2.2.2.1, h1.2.2.2.2.1])
         | (simp only [State.statics, Prod.mk.injEq] at h1
            rw [h1.2.2.2.2.1]))

theorem mexSetRegion_tracker_initialized [Zero D] (E : Engine W T P X D)
    (s : State W T P D) (nlhs : Nat) (prhs : List (MxArray D)) :
    (mexSetRegion E s nlhs prhs).1.tracker_initialized = s.tracker_initialized := by
  unfold mexSetRegion
  dsimp only
  repeat' split
  all_goals first
    | rfl
    | (have h1 := setRegion_statics_of_eq ‹setRegion E _ _ = _›
       first
         | (have h2 := regionOutput_statics E _ _ _ ‹regionOutput E _ = _›
            simp only [State.statics, Prod.mk.injEq] at h1 h2
            rw [h2.2.2.2.2.1, h1.2.2.2.2.1])
         | (simp only [State.statics, Prod.mk.injEq] at h1
            rw [h1.2.2.2.2.1]))

theorem mexRemove_tracker_initialized (E : Engine W T P X D) (s : State W T P D)
    (nlhs : Nat) (prhs : List (MxArray D)) :
    (mexRemove E s nlhs prhs).1.tracker_initialized = s.tracker_initialized := by
  unfold mexRemove eraseTracker
  dsimp only
  repeat' split
  all_goals rfl

theorem initCorners_statics (E : Engine W T P X D) (s : State W T P D)
    (prhs : List (MxArray D)) (init_img : Mat uchar) :
    (initCorners E s prhs init_img).1.statics = s.statics := by
  unfold initCorners
  repeat' split
  all_goals rfl

theorem initCorners_statics_of_eq {E : Engine W T P X D} {s s' : State W T P D}
    {prhs : List (MxArray D)} {init_img : Mat uchar} {r : Res (Mat D)}
    (h : initCorners E s prhs init_img = (s', r)) : s'.statics = s.statics := by
  have := initCorners_statics E s prhs init_img
  rw [h] at this
  exact this

/-- A call of `initialize` that does not report success leaves the flag
`tracker_initialized` as it was. -/
theorem mexInitialize_tracker_initialized [Zero D] [Sub D] (E : Engine W T P X D)
    (s : State W T P D) (nlhs : Nat) (prhs : List (MxArray D)) :
    (mexInitialize E s nlhs prhs).2.succeeded = true ∨
    (mexInitialize E s nlhs prhs).1.tracker_initialized = s.tracker_initialized := by
  unfold mexInitialize
  dsimp only
  repeat' split
  all_goals first
    | (right; rfl)
    | (left; rfl)
    | (right
       have h1 := initCorners_statics_of_eq ‹initCorners E _ _ _ = _›
       first
         | (have h2 := initializeTracker_statics_of_eq ‹initializeTracker E _ _ _ = _›
            simp only [State.statics, Prod.mk.injEq] at h1 h2
            rw [h2.2.2.2.2.1, h1.2.2.2.2.1])
         | (simp only [State.statics, Prod.mk.injEq] at h1
            rw [h1.2.2.2.2.1]))

theorem mexFunction_tracker_initialized [Zero D] [Sub D] (E : Engine W T P X D)
    (s : State W T P D) (nlhs : Nat) (prhs : List (MxArray D)) :
    (commandOf prhs = some "initialize" ∧ (mexFunction E s nlhs prhs).2.succeeded = true) ∨
    (mexFunction E s nlhs prhs).1.tracker_initialized = s.tracker_initialized := by
  rcases mexFunction_dispatch E s nlhs prhs with
    ⟨_, h⟩ | ⟨hc, h⟩ | ⟨_, h⟩ | ⟨_, h⟩ | ⟨_, h⟩ | ⟨_, _, _, _, _, e, h⟩
  · right; rw [h]; exact mexCreate_tracker_initialized E s prhs
  · rw [h]
    rcases mexInitialize_tracker_initialized E s nlhs prhs with h1 | h1
    · exact Or.inl ⟨hc, h1⟩
    · exact Or.inr h1
  · right; rw [h]; exact mexUpdate_tracker_initialized E s nlhs prhs
  · right; rw [h]; exact mexSetRegion_tracker_initialized E s nlhs prhs
  · right; rw [h]; exact mexRemove_tracker_initialized E s nlhs prhs
  · right; rw [h]

end Flags

/-! ## Region round trip -/

section RoundTrip
variable {W T P X D : Type}

/-- Encoding the decoding of a host `2 x 4` matrix gives the matrix back. -/
theorem setCorners_getCorners [Zero D] (b : List D) (hb : b.length = 8) :
    ∃ R, getCorners ⟨[2, 4], .double b⟩ = .ok R ∧
      setCorners R = some ⟨[2, 4], .double b⟩ := by
  have hget : getCorners (D := D) ⟨[2, 4], .double b⟩ =
      Res.ofOption (cv_transpose { rows := 4, cols := 2, channels := 1, data := b }) := by
    simp [getCorners]
  obtain ⟨R, hR⟩ := cv_transpose_isSome
    ({ rows := 4, cols := 2, channels := 1, data := b } : Mat D) (by simp [hb])
  have hback := cv_transpose_involutive _ _ hR (by simp [hb])
  refine ⟨R, by rw [hget, hR]; rfl, ?_⟩
  unfold setCorners
  rw [hback]
  simp

/-- Decoding the encoding of a `2 x 4` region gives the region back. -/
theorem getCorners_setCorners [Zero D] (R : Mat D) (hr : R.rows = 2) (hc : R.cols = 4)
    (hch : R.channels = 1) (hlen : R.data.length = 8) :
    ∃ mx, setCorners R = some mx ∧ mx.dims = [2, 4] ∧ getCorners mx = .ok R := by
  obtain ⟨Rt, hRt⟩ := cv_transpose_isSome R (by rw [hr, hc, hlen])
  obtain ⟨h1, h2, h3, _, _⟩ := cv_transpose_spec _ _ hRt
  have hback := cv_transpose_involutive _ _ hRt (by rw [hr, hc, hlen])
  have hRt' : Rt = { rows := 4, cols := 2, channels := 1, data := Rt.data } := by
    cases Rt with
    | mk r c ch d =>
      simp only at h1 h2 h3
      simp only [Mat.mk.injEq, and_true]
      exact ⟨by rw [h1, hc], by rw [h2, hr], by rw [h3, hch]⟩
  refine ⟨⟨[2, 4], .double Rt.data⟩, ?_, rfl, ?_⟩
  · unfold setCorners
    rw [hRt]
    simp [h1, h2, h3, hr, hc, hch]
  · have hget : getCorners (D := D) ⟨[2, 4], .double Rt.data⟩ =
        Res.ofOption (cv_transpose { rows := 4, cols := 2, channels := 1, data := Rt.data }) := by
      simp [getCorners]
    rw [hget, ← hRt', hback]
    rfl

end RoundTrip

/-- C4. Region marshaling round-trips exactly: `setCorners` of `getCorners` of a host
`2 x 4` double buffer returns that buffer, `getCorners` of `setCorners` of a `2 x 4`
region returns that region, and a `set_region` call whose tracker reports as its
region the region it was just given returns the region argument as its second
output. -/
theorem region_round_trip {W T P X D : Type} [Zero D] [Sub D] (E : Engine W T P X D) :
    (∀ b : List D, b.length = 8 →
      ∃ R, getCorners ⟨[2, 4], .double b⟩ = .ok R ∧
        setCorners R = some ⟨[2, 4], .double b⟩) ∧
    (∀ R : Mat D, R.rows = 2 → R.cols = 4 → R.channels = 1 → R.data.length = 8 →
      ∃ mx, setCorners R = some mx ∧ mx.dims = [2, 4] ∧ getCorners mx = .ok R) ∧
    (∀ (s : State W T P D) (prhs : List (MxArray D)) (b : List D) (id : Nat) (tracker : T)
        (R : Mat D) (w : W),
      s.tracker_initialized = true → commandOf prhs = some "set_region" →
      prhs[1]? = some ⟨[2, 4], .double b⟩ → b.length = 8 →
      selectTrackerID s prhs 2 = .ok id → s.trackers[id]? = some (some tracker) →
      getCorners ⟨[2, 4], .double b⟩ = .ok R →
      E.trkSetRegion s.world tracker R = (w, none) → E.getRegion w tracker = R →
      (mexFunction E s 2 prhs).2 = .returned 1 (some ⟨[2, 4], .double b⟩)) := by
  refine ⟨setCorners_getCorners, getCorners_setCorners, ?_⟩
  intro s prhs b id tracker R w hinit hcmd harg hb hid htrk hR hset hreg
  obtain ⟨R', hR', henc⟩ := setCorners_getCorners b hb
  rw [hR] at hR'
  cases hR'
  have hlen : 2 ≤ prhs.length := by
    by_contra hc
    rw [List.getElem?_eq_none (by omega)] at harg
    cases harg
  have hidlt : id < s.trackers.length := by
    by_contra hc
    rw [List.getElem?_eq_none (by omega)] at htrk
    cases htrk
  rw [mexFunction_set_region E s 2 prhs hcmd]
  unfold mexSetRegion
  rw [if_neg (by omega), if_neg (by simp), if_neg (by simp [hinit])]
  simp only [hid, harg, hR, setRegion, htrk, hset, regionOutput, State.call, hreg, henc]
  rw [if_neg (by omega)]


theorem region_round_trip_witness :
    (mexFunction demoEngine
        (run demoEngine demoInit
          [⟨1, [mxString "create"]⟩, ⟨2, [mxString "initialize", demoImage, demoRegion]⟩])
        2 [mxString "set_region", ⟨[2, 4], .double [1, 2, 3, 4, 5, 6, 7, 8]⟩]).2 =
      .returned 1 (some ⟨[2, 4], .double [1, 2, 3, 4, 5, 6, 7, 8]⟩) :=
  (region_round_trip demoEngine).2.2
    (run demoEngine demoInit
      [⟨1, [mxString "create"]⟩, ⟨2, [mxString "initialize", demoImage, demoRegion]⟩])
    [mxString "set_region", ⟨[2, 4], .double [1, 2, 3, 4, 5, 6, 7, 8]⟩]
    [1, 2, 3, 4, 5, 6, 7, 8] 0 0 ⟨2, 4, 1, [1, 3, 5, 7, 2, 4, 6, 8]⟩
    { config := "../../Config", built := 1,
      regions := [(0, ⟨2, 4, 1, [1, 3, 5, 7, 2, 4, 6, 8]⟩),
        (0, ⟨2, 4, 1, [10, 50, 50, 10, 10, 10, 50, 50]⟩)] }
    (by decide) (by decide) (by decide) (by decide) (by decide) (by decide) (by decide)
    (by decide) (by decide)


/-! ## Lifecycle enforcement -/

section Lifecycle
variable {W T P X D : Type}

/-- The flag `tracker_initialized` stays clear along a sequence of calls in which
no `initialize` reports success. -/
theorem run_tracker_initialized_false [Zero D] [Sub D] (E : Engine W T P X D)
    (reqs : List (Request D)) (s : State W T P D) (hs : s.tracker_initialized = false)
    (hnone : ∀ h ∈ history E s reqs,
      ¬ (commandOf h.2.1.prhs = some "initialize" ∧ h.2.2.succeeded = true)) :
    (run E s reqs).tracker_initialized = false := by
  induction reqs generalizing s with
  | nil => exact hs
  | cons r rest ih =>
    simp only [history, List.mem_cons, forall_eq_or_imp] at hnone
    obtain ⟨h1, h2⟩ := hnone
    simp only [run]
    apply ih _ _ h2
    rcases mexFunction_tracker_initialized E s r.nlhs r.prhs with h3 | h3
    · exact absurd h3 h1
    · rw [h3]; exact hs

theorem mexUpdate_not_initialized [Zero D] (E : Engine W T P X D) (s : State W T P D)
    (prhs : List (MxArray D)) (hs : s.tracker_initialized = false) (hargs : 2 ≤ prhs.length) :
    mexUpdate E s 2 prhs = (s, .error .mustBeInitializedUpdate) := by
  unfold mexUpdate
  rw [if_neg (by omega), if_neg (by simp), if_pos (by simp [hs])]

theorem mexSetRegion_not_initialized [Zero D] (E : Engine W T P X D) (s : State W T P D)
    (prhs : List (MxArray D)) (hs : s.tracker_initialized = false) (hargs : 2 ≤ prhs.length) :
    mexSetRegion E s 2 prhs = (s, .error .mustBeInitializedSetRegion) := by
  unfold mexSetRegion
  rw [if_neg (by omega), if_neg (by simp), if_pos (by simp [hs])]

end Lifecycle

/-- C5 as stated does not hold: after `create`, a successful `initialize` of session 0
and a second `create`, session 1 has never been initialized, yet `update` on
session 1 is not rejected and reaches the pre-processor and the tracker of
session 1. -/
theorem per_session_lifecycle_not_enforced :
    ¬ PerSessionLifecycleEnforced demoEngine demoInit
      [⟨1, [mxString "create"]⟩, ⟨2, [mxString "initialize", demoImage, demoRegion]⟩,
        ⟨1, [mxString "create"]⟩] := by
  intro h
  have h1 := h 1 [mxString "update", demoImage, mxUint32 1] (by decide)
    (Or.inl (by decide)) (by decide) (by decide)
  exact absurd h1 (by decide)

/-- C5, amended. The lifecycle flag is global: in every state reached from the initial
state by calls among which no `initialize` has reported success, a call of `update`
or `set_region` with two requested outputs and at least two inputs is aborted with
the error of a tracker that is not initialized, and the whole state, including the
state of the collaborators and the history of calls made to them, is unchanged. -/
theorem update_rejected_until_initialized {W T P X D : Type} [Zero D] [Sub D]
    (E : Engine W T P X D) (w0 : W) (reqs : List (Request D)) (prhs : List (MxArray D))
    (hnone : ∀ h ∈ history E (State.init w0) reqs,
      ¬ (commandOf h.2.1.prhs = some "initialize" ∧ h.2.2.succeeded = true))
    (hargs : 2 ≤ prhs.length) :
    (commandOf prhs = some "update" →
      mexFunction E (run E (State.init w0) reqs) 2 prhs =
        (run E (State.init w0) reqs, .error .mustBeInitializedUpdate)) ∧
    (commandOf prhs = some "set_region" →
      mexFunction E (run E (State.init w0) reqs) 2 prhs =
        (run E (State.init w0) reqs, .error .mustBeInitializedSetRegion)) := by
  have hflag := run_tracker_initialized_false E reqs (State.init w0) rfl hnone
  constructor
  · intro hc
    rw [mexFunction_update E _ _ _ hc]
    exact mexUpdate_not_initialized E _ _ hflag hargs
  · intro hc
    rw [mexFunction_set_region E _ _ _ hc]
    exact mexSetRegion_not_initialized E _ _ hflag hargs

theorem update_rejected_until_initialized_witness :
    mexFunction demoEngine (run demoEngine (State.init demoWorld) [⟨1, [mxString "create"]⟩]) 2
        [mxString "update", demoImage] =
      (run demoEngine (State.init demoWorld) [⟨1, [mxString "create"]⟩],
        .error .mustBeInitializedUpdate) :=
  (update_rejected_until_initialized demoEngine demoWorld [⟨1, [mxString "create"]⟩]
    [mxString "update", demoImage] (by decide) (by decide)).1 (by decide)


/-! ## Registry: active index, removal and creation -/

section Registry
variable {W T P X D : Type}

end Registry

/-- C6. The code breaks the active-index invariant at a `remove` call with an explicit
index on the empty registry: the call is aborted with the error of an invalid
tracker ID, yet the index 7 it named stays in `tracker_id` while `trackers` is
empty. -/
theorem active_index_invalid_after_rejected_remove :
    (mexFunction demoEngine demoInit 1 [mxString "remove", mxUint32 7]).2 =
      .error (.invalidTrackerID 7 0) ∧
    (mexFunction demoEngine demoInit 1 [mxString "remove", mxUint32 7]).1.trackers = [] ∧
    (mexFunction demoEngine demoInit 1 [mxString "remove", mxUint32 7]).1.tracker_id = 7 ∧
    ¬ ActiveIndexValid (mexFunction demoEngine demoInit 1 [mxString "remove", mxUint32 7]).1 := by
  unfold ActiveIndexValid
  decide

/-- C7. The code does not move sessions down as bundles: after `create`, `create`,
`remove 0` the tracker of the second session is at index 0, but the pre-processors
are not moved, so index 0 pairs tracker 1 with the pre-processor that was built
for tracker 0. -/
theorem remove_keeps_pre_procs :
    (run demoEngine demoInit [⟨1, [mxString "create"]⟩, ⟨1, [mxString "create"]⟩]).session 1 =
      some (some 1, 1) ∧
    (mexFunction demoEngine
      (run demoEngine demoInit [⟨1, [mxString "create"]⟩, ⟨1, [mxString "create"]⟩])
      1 [mxString "remove", mxUint32 0]).2 = .returned 1 none ∧
    (run demoEngine demoInit [⟨1, [mxString "create"]⟩, ⟨1, [mxString "create"]⟩,
      ⟨1, [mxString "remove", mxUint32 0]⟩]).session 0 = some (some 1, 0) ∧
    (run demoEngine demoInit [⟨1, [mxString "create"]⟩, ⟨1, [mxString "create"]⟩,
      ⟨1, [mxString "remove", mxUint32 0]⟩]).trackers = [some 1] ∧
    (run demoEngine demoInit [⟨1, [mxString "create"]⟩, ⟨1, [mxString "create"]⟩,
      ⟨1, [mxString "remove", mxUint32 0]⟩]).pre_procs = [0, 1] := by
  decide

/-- C9. The code changes state in a call that fails validation: an `update` call with
an explicit index that is out of range is aborted with the error of an invalid
tracker ID, yet the active index has changed from 0 to the index 5 that the call
named. -/
theorem rejected_update_changes_active_index :
    (run demoEngine demoInit
      [⟨1, [mxString "create"]⟩,
        ⟨2, [mxString "initialize", demoImage, demoRegion]⟩]).tracker_id = 0 ∧
    (mexFunction demoEngine
      (run demoEngine demoInit
        [⟨1, [mxString "create"]⟩, ⟨2, [mxString "initialize", demoImage, demoRegion]⟩])
      2 [mxString "update", demoImage, mxUint32 5]).2 = .error (.invalidTrackerID 5 1) ∧
    (mexFunction demoEngine
      (run demoEngine demoInit
        [⟨1, [mxString "create"]⟩, ⟨2, [mxString "initialize", demoImage, demoRegion]⟩])
      2 [mxString "update", demoImage, mxUint32 5]).1.tracker_id = 5 := by
  decide

/-- C10. The code does not create atomically: when the tracker factory returns a null
pointer, and when the pre-processor factory throws, `create` returns status 0, yet
`trackers` has grown by one entry (a null pointer, respectively a tracker without
pre-processor). -/
theorem failed_create_changes_registry :
    (mexFunction demoEngine demoInit 1 [mxString "create", mxString "null_tracker"]).2 =
      .returned 0 none ∧
    (mexFunction demoEngine demoInit 1
      [mxString "create", mxString "null_tracker"]).1.trackers = [none] ∧
    (mexFunction demoEngine demoInit 1
      [mxString "create", mxString "null_tracker"]).1.pre_procs = [] ∧
    (mexFunction demoEngine demoInit 1 [mxString "create", mxString "throwing_pre_proc"]).2 =
      .returned 0 none ∧
    (mexFunction demoEngine demoInit 1
      [mxString "create", mxString "throwing_pre_proc"]).1.trackers = [some 0] ∧
    (mexFunction demoEngine demoInit 1
      [mxString "create", mxString "throwing_pre_proc"]).1.pre_procs = [] ∧
    demoInit.trackers = [] ∧ demoInit.pre_procs = [] := by
  decide


/-! ## Validation in the marshaling functions -/

section Validation
variable {D : Type}

theorem Res.ofOption_ne_error {α : Type} (o : Option α) (e : MexError) :
    Res.ofOption o ≠ .error e := by
  cases o <;> simp [Res.ofOption]

/-- The errors that `getImage` can raise. -/
theorem getImage_error {mx_img : MxArray D} {e : MexError} (h : getImage mx_img = .error e) :
    e = .imageNotUint8 ∨ e = .imageDims := by
  unfold getImage at h
  dsimp only at h
  repeat' split at h
  all_goals first
    | (cases h; first | exact Or.inl rfl | exact Or.inr rfl)
    | exact absurd h (Res.ofOption_ne_error _ _)
    | cases h

/-- The errors that `getCorners` can raise. -/
theorem getCorners_error {mx_corners : MxArray D} {e : MexError}
    (h : getCorners mx_corners = .error e) :
    e = .cornersNotDouble ∨ e = .cornersDims ∨ e = .cornersSize := by
  unfold getCorners at h
  dsimp only at h
  repeat' split at h
  all_goals first
    | (cases h
       first
         | exact Or.inl rfl
         | exact Or.inr (Or.inl rfl)
         | exact Or.inr (Or.inr rfl))
    | exact absurd h (Res.ofOption_ne_error _ _)

/-- The error that `getTrackerID` can raise. -/
theorem getTrackerID_error {mx_tracker_id : MxArray D} {e : MexError}
    (h : getTrackerID mx_tracker_id = .error e) : e = .trackerIDNotUint32 := by
  unfold getTrackerID at h
  split at h
  · exact absurd h (Res.ofOption_ne_error _ _)
  · cases h; rfl

/-- Which arrays pass the checks of `getImage`, and the shape of every frame it
returns. -/
theorem getImage_validation (mx_img : MxArray D) :
    ((∃ e, getImage mx_img = .error e) ↔
      ¬ ((∃ p, mx_img.data = .uint8 p) ∧ (mx_img.dims.length = 2 ∨ mx_img.dims.length = 3))) ∧
    ∀ img, getImage mx_img = .ok img →
      (img.rows : Int) = toInt (mx_img.dims.getD 0 0) ∧
      (img.cols : Int) = toInt (mx_img.dims.getD 1 0) ∧
      (mx_img.dims.length = 2 → img.channels = 1) ∧
      (mx_img.dims.length = 3 → img.channels = 3) := by
  constructor
  · constructor
    · rintro ⟨e, he⟩ ⟨⟨p, hp⟩, hlen⟩
      unfold getImage at he
      dsimp only at he
      rw [hp] at he
      dsimp only at he
      rw [if_neg (by omega)] at he
      repeat' split at he
      all_goals first
        | exact absurd he (Res.ofOption_ne_error _ _)
        | cases he
    · intro hn
      unfold getImage
      dsimp only
      cases hd : mx_img.data with
      | uint8 p =>
        dsimp only
        by_cases hlen : mx_img.dims.length < 2 ∨ mx_img.dims.length > 3
        · rw [if_pos hlen]
          exact ⟨_, rfl⟩
        · exact absurd ⟨⟨p, hd⟩, by omega⟩ hn
      | chars s => exact ⟨_, rfl⟩
      | uint32 p => exact ⟨_, rfl⟩
      | double p => exact ⟨_, rfl⟩
      | other => exact ⟨_, rfl⟩
  · intro img himg
    unfold getImage at himg
    dsimp only at himg
    repeat' split at himg
    all_goals first
      | cases himg
      | (rename_i hneg h2
         have hh : 0 ≤ toInt (mx_img.dims.getD 0 0) := by omega
         have hw : 0 ≤ toInt (mx_img.dims.getD 1 0) := by omega
         cases hc : cv_transpose
             ({ rows := (toInt (mx_img.dims.getD 1 0)).toNat,
                cols := (toInt (mx_img.dims.getD 0 0)).toNat, channels := 1,
                data := ‹List uchar› } : Mat uchar) with
         | none => rw [hc] at himg; cases himg
         | some dst =>
           rw [hc] at himg
           simp only [Res.ofOption, Res.ok.injEq] at himg
           subst himg
           obtain ⟨h1, h2', h3, _, _⟩ := cv_transpose_spec _ _ hc
           dsimp only at h1 h2' h3
           refine ⟨?_, ?_, fun _ => h3, fun h => by omega⟩
           · rw [h1]; exact Int.toNat_of_nonneg hh
           · rw [h2']; exact Int.toNat_of_nonneg hw)
      | (rename_i hneg h2
         have hh : 0 ≤ toInt (mx_img.dims.getD 0 0) := by omega
         have hw : 0 ≤ toInt (mx_img.dims.getD 1 0) := by omega
         cases hc : copyMatrixFromMatlab ‹List uchar›
             ({ rows := (toInt (mx_img.dims.getD 0 0)).toNat,
                cols := (toInt (mx_img.dims.getD 1 0)).toNat,
                channels := 3,
                data := List.replicate ((toInt (mx_img.dims.getD 0 0)).toNat *
                  (toInt (mx_img.dims.getD 1 0)).toNat * 3) 0 } : Mat uchar) 3 with
         | none => rw [hc] at himg; cases himg
         | some out =>
           rw [hc] at himg
           simp only [Res.ofOption, Res.ok.injEq] at himg
           subst himg
           obtain ⟨h1, h2', h3', _, _⟩ := copyMatrixFromMatlab_spec _ _ _ _ hc
           dsimp only at h1 h2' h3'
           refine ⟨?_, ?_, fun h => absurd h h2, fun _ => ?_⟩
           · rw [h1]; exact Int.toNat_of_nonneg hh
           · rw [h2']; exact Int.toNat_of_nonneg hw
           · exact h3')

end Validation

/-- C13 as stated does not hold: a host-transposed `4 x 2` double matrix is rejected
with the size error. -/
theorem getCorners_rejects_4x2 :
    getCorners (D := Int) ⟨[4, 2], .double [10, 10, 50, 10, 50, 50, 10, 50]⟩ =
      .error .cornersSize ∧
    ¬ ∃ R, getCorners (D := Int) ⟨[4, 2], .double [10, 10, 50, 10, 50, 50, 10, 50]⟩ = .ok R := by
  constructor
  · decide
  · rintro ⟨R, hR⟩
    have h : getCorners (D := Int) ⟨[4, 2], .double [10, 10, 50, 10, 50, 50, 10, 50]⟩ =
        .error .cornersSize := by decide
    rw [h] at hR
    cases hR

/-- C13, amended. Region decode succeeds exactly when the array has 64 bit floating
point elements, two dimensions and shape `2 x 4`; every other element type,
dimensionality or shape, the shape `4 x 2` included, fails with one of the three
format errors of `getCorners`. -/
theorem getCorners_accepts_exactly_2x4 {D : Type} (mx_corners : MxArray D)
    (hwf : ∀ b, mx_corners.data = .double b → b.length = mx_corners.numel) :
    ((∃ R, getCorners mx_corners = .ok R) ↔
      ((∃ b, mx_corners.data = .double b) ∧ mx_corners.dims = [2, 4])) ∧
    (¬ ((∃ b, mx_corners.data = .double b) ∧ mx_corners.dims = [2, 4]) →
      getCorners mx_corners = .error .cornersNotDouble ∨
      getCorners mx_corners = .error .cornersDims ∨
      getCorners mx_corners = .error .cornersSize) := by
  obtain ⟨dims, data⟩ := mx_corners
  cases data with
  | double b =>
    have hlen := hwf b rfl
    simp only [MxArray.numel] at hlen
    by_cases hd : dims = [2, 4]
    · subst hd
      simp only [List.prod_cons, List.prod_nil] at hlen
      have hget : getCorners (D := D) ⟨[2, 4], .double b⟩ =
          Res.ofOption (cv_transpose { rows := 4, cols := 2, channels := 1, data := b }) := by
        simp [getCorners]
      obtain ⟨R, hR⟩ := cv_transpose_isSome
        ({ rows := 4, cols := 2, channels := 1, data := b } : Mat D)
        (by simp only; omega)
      exact ⟨⟨fun _ => ⟨⟨b, rfl⟩, rfl⟩, fun _ => ⟨R, by rw [hget, hR]; rfl⟩⟩,
        fun hn => absurd ⟨⟨b, rfl⟩, rfl⟩ hn⟩
    · have herr : getCorners (D := D) ⟨dims, .double b⟩ = .error .cornersDims ∨
          getCorners (D := D) ⟨dims, .double b⟩ = .error .cornersSize := by
        unfold getCorners
        dsimp only
        by_cases h2 : dims.length = 2
        · right
          rw [if_neg (by simpa using h2)]
          match dims, h2, hd with
          | [a, c], _, hd =>
            have hac : a ≠ 2 ∨ c ≠ 4 := by
              by_contra hc
              push_neg at hc
              exact hd (by rw [hc.1, hc.2])
            rw [if_pos (by simpa using hac)]
        · left
          rw [if_pos (by simpa using h2)]
      refine ⟨⟨?_, fun h => absurd h.2 hd⟩, fun _ => Or.inr herr⟩
      rintro ⟨R, hR⟩
      rcases herr with h | h <;> rw [h] at hR <;> cases hR
  | chars s =>
    refine ⟨⟨?_, ?_⟩, fun _ => Or.inl rfl⟩
    · rintro ⟨R, hR⟩
      cases hR
    · rintro ⟨⟨b, hb⟩, _⟩
      cases hb
  | uint8 p =>
    refine ⟨⟨?_, ?_⟩, fun _ => Or.inl rfl⟩
    · rintro ⟨R, hR⟩
      cases hR
    · rintro ⟨⟨b, hb⟩, _⟩
      cases hb
  | uint32 p =>
    refine ⟨⟨?_, ?_⟩, fun _ => Or.inl rfl⟩
    · rintro ⟨R, hR⟩
      cases hR
    · rintro ⟨⟨b, hb⟩, _⟩
      cases hb
  | other =>
    refine ⟨⟨?_, ?_⟩, fun _ => Or.inl rfl⟩
    · rintro ⟨R, hR⟩
      cases hR
    · rintro ⟨⟨b, hb⟩, _⟩
      cases hb

theorem getCorners_accepts_exactly_2x4_witness :
    ((∃ R, getCorners demoRegion = .ok R) ↔
      ((∃ b, demoRegion.data = .double b) ∧ demoRegion.dims = [2, 4])) ∧
    (¬ ((∃ b, demoRegion.data = .double b) ∧ demoRegion.dims = [2, 4]) →
      getCorners demoRegion = .error .cornersNotDouble ∨
      getCorners demoRegion = .error .cornersDims ∨
      getCorners demoRegion = .error .cornersSize) :=
  getCorners_accepts_exactly_2x4 demoRegion (by
    intro b hb
    cases hb
    rfl)


/-- For a 3-D uint8 buffer `H x W x d` that holds `H * W * d` samples, with `H` and
`W` at most `INT_MAX`, the decode has undefined behaviour exactly when the buffer
has pixels and fewer than three planes (a read outside the buffer) or
`H * W * 3` exceeds `2^31` (an index overflows). -/
theorem getImage_undefined_iff {D : Type} (H W d : Nat) (img_ptr : List uchar)
    (hH : H ≤ INT_MAX) (hW : W ≤ INT_MAX) (hlen : img_ptr.length = H * W * d) :
    getImage (D := D) ⟨[H, W, d], .uint8 img_ptr⟩ = .undefined ↔
      (d < 3 ∧ 0 < H * W) ∨ INT_MAX + 1 < H * W * 3 := by
  rw [getImage_color_eq H W d img_ptr hH hW]
  constructor
  · intro hu
    by_contra hn
    push_neg at hn
    obtain ⟨hn1, hn2⟩ := hn
    have hle : H * W * 3 ≤ img_ptr.length := by
      rw [hlen]
      by_cases hd : d < 3
      · have h0 : H * W = 0 := by
          have := hn1 hd
          omega
        rw [h0]; simp
      · exact Nat.mul_le_mul_left _ (by omega)
    obtain ⟨out, hout⟩ := copyMatrixFromMatlab_isSome img_ptr
      { rows := H, cols := W, channels := 3,
        data := List.replicate (H * W * 3) (0 : uchar) } 3 hle (by simp) hn2
    rw [hout] at hu
    cases hu
  · rintro (⟨hd, hpos⟩ | hbig)
    · cases hc : copyMatrixFromMatlab img_ptr
          { rows := H, cols := W, channels := 3,
            data := List.replicate (H * W * 3) (0 : uchar) } 3 with
      | none => rfl
      | some out =>
        exfalso
        have hH0 : 0 < H := Nat.pos_of_mul_pos_right hpos
        have hW0 : 0 < W := Nat.pos_of_mul_pos_left hpos
        obtain ⟨_, _, _, _, h5⟩ := copyMatrixFromMatlab_spec _ _ _ _ hc
        obtain ⟨_, _, hr, _, _⟩ := h5 0 0 2 hH0 hW0 (by omega)
        simp only [columnMajorIndex, Nat.zero_add, hlen] at hr
        have h2 : H * W * d ≤ H * W * 2 := Nat.mul_le_mul_left _ (by omega)
        have h3 : 2 * W * H = H * W * 2 := by ring
        omega
    · have hpos : 0 < H * W := by
        rcases Nat.eq_zero_or_pos (H * W) with h0 | h0
        · rw [h0] at hbig; simp at hbig
        · exact h0
      obtain ⟨h', rfl⟩ : ∃ h', H = h' + 1 :=
        ⟨H - 1, by have := Nat.pos_of_mul_pos_right hpos; omega⟩
      obtain ⟨w', rfl⟩ : ∃ w', W = w' + 1 :=
        ⟨W - 1, by have := Nat.pos_of_mul_pos_left hpos; omega⟩
      have e : columnMajorIndex h' w' 2 (h' + 1) (w' + 1) + 1 = (h' + 1) * (w' + 1) * 3 := by
        unfold columnMajorIndex
        ring
      rw [copyMatrixFromMatlab_overflow img_ptr _ 3 h' w' 2 (by simp) (by simp) (by omega)
        (by dsimp only; omega)]
      rfl

/-- C14. The code does not decode every 3-D uint8 buffer: a `1 x 1 x 2` uint8 array with
its two samples passes both checks of `getImage`, and the copy then reads a third
sample that the buffer does not have. -/
theorem getImage_two_planes_undefined :
    (∀ e, getImage (D := Int) ⟨[1, 1, 2], .uint8 [7, 9]⟩ ≠ .error e) ∧
    (∀ img, getImage (D := Int) ⟨[1, 1, 2], .uint8 [7, 9]⟩ ≠ .ok img) ∧
    getImage (D := Int) ⟨[1, 1, 2], .uint8 [7, 9]⟩ = .undefined := by
  have h : getImage (D := Int) ⟨[1, 1, 2], .uint8 [7, 9]⟩ = .undefined := by decide
  refine ⟨fun e he => ?_, fun img himg => ?_, h⟩
  · rw [h] at he; cases he
  · rw [h] at himg; cases himg

/-- C20. The code reads outside the host buffer: for a `2 x 1 x 2` uint8 array, which has
4 samples, the loop nest of `copyMatrixFromMatlab` runs the iteration of channel 2,
column 0, row 0, whose read index is 4. -/
theorem getImage_reads_past_buffer :
    (⟨[2, 1, 2], .uint8 [1, 2, 3, 4]⟩ : MxArray Int).numel = 4 ∧
    (2, 0, 0) ∈ copyIterations 3 1 2 ∧
    _A3D_IDX_COLUMN_MAJOR 0 0 2 2 1 = some 4 ∧
    ([1, 2, 3, 4] : List uchar)[4]? = none ∧
    getImage (D := Int) ⟨[2, 1, 2], .uint8 [1, 2, 3, 4]⟩ = .undefined := by
  decide


/-! ## Dispatch and removal -/

section Dispatch
variable {W T P X D : Type}

theorem mexFunction_remove [Zero D] [Sub D] (E : Engine W T P X D) (s : State W T P D)
    (nlhs : Nat) (prhs : List (MxArray D)) (hc : commandOf prhs = some "remove") :
    mexFunction E s nlhs prhs = mexRemove E s nlhs prhs := by
  rcases mexFunction_dispatch E s nlhs prhs with
    ⟨h0, _⟩ | ⟨h0, _⟩ | ⟨h0, _⟩ | ⟨h0, _⟩ | ⟨_, h⟩ | ⟨_, _, _, _, h0, _⟩
  · rw [hc] at h0; exact absurd h0 (by decide)
  · rw [hc] at h0; exact absurd h0 (by decide)
  · rw [hc] at h0; exact absurd h0 (by decide)
  · rw [hc] at h0; exact absurd h0 (by decide)
  · exact h
  · exact absurd hc h0

theorem mexFunction_initialize_eq [Zero D] [Sub D] (E : Engine W T P X D) (s : State W T P D)
    (nlhs : Nat) (prhs : List (MxArray D)) (hc : commandOf prhs = some "initialize") :
    mexFunction E s nlhs prhs = mexInitialize E s nlhs prhs := by
  rcases mexFunction_dispatch E s nlhs prhs with
    ⟨h0, _⟩ | ⟨_, h⟩ | ⟨h0, _⟩ | ⟨h0, _⟩ | ⟨h0, _⟩ | ⟨_, h0, _⟩
  · rw [hc] at h0; exact absurd h0 (by decide)
  · exact h
  · rw [hc] at h0; exact absurd h0 (by decide)
  · rw [hc] at h0; exact absurd h0 (by decide)
  · rw [hc] at h0; exact absurd h0 (by decide)
  · exact absurd hc h0

theorem mexFunction_unknown [Zero D] [Sub D] (E : Engine W T P X D) (s : State W T P D)
    (nlhs : Nat) (prhs : List (MxArray D)) (cmd_str : String)
    (hc : commandOf prhs = some cmd_str)
    (hn : cmd_str ∉ ["create", "initialize", "update", "set_region", "remove"]) :
    mexFunction E s nlhs prhs = (s, .error (.invalidCommand cmd_str)) := by
  simp only [List.mem_cons, List.mem_singleton, not_or, List.mem_nil_iff, or_false] at hn
  obtain ⟨h1, h2, h3, h4, h5⟩ := hn
  have b1 : (cmd_str == "create") = false := beq_eq_false_iff_ne.2 h1
  have b2 : (cmd_str == "initialize") = false := beq_eq_false_iff_ne.2 h2
  have b3 : (cmd_str == "update") = false := beq_eq_false_iff_ne.2 h3
  have b4 : (cmd_str == "set_region") = false := beq_eq_false_iff_ne.2 h4
  have b5 : (cmd_str == "remove") = false := beq_eq_false_iff_ne.2 h5
  have hl : cmd_list.lookup cmd_str = none := by
    simp only [cmd_list, List.lookup, b1, b2, b3, b4, b5]
  unfold commandOf at hc
  unfold mexFunction
  cases h0 : prhs[0]? with
  | none => rw [h0] at hc; cases hc
  | some mx_cmd =>
    rw [h0] at hc
    dsimp only at hc ⊢
    cases hd : mx_cmd.data with
    | chars c =>
      rw [hd] at hc
      simp only [Option.some.injEq] at hc
      subst hc
      simp only [hl]
    | uint8 p => rw [hd] at hc; cases hc
    | uint32 p => rw [hd] at hc; cases hc
    | double p => rw [hd] at hc; cases hc
    | other => rw [hd] at hc; cases hc

theorem selectTrackerID_error {s : State W T P D} {prhs : List (MxArray D)} {i : Nat}
    {e : MexError} (h : selectTrackerID s prhs i = .error e) : e = .trackerIDNotUint32 := by
  unfold selectTrackerID at h
  repeat' split at h
  all_goals first
    | exact getTrackerID_error h
    | cases h

theorem initCorners_error {E : Engine W T P X D} {s s' : State W T P D}
    {prhs : List (MxArray D)} {init_img : Mat uchar} {e : MexError}
    (h : initCorners E s prhs init_img = (s', .error e)) :
    e = .cornersNotDouble ∨ e = .cornersDims ∨ e = .cornersSize ∨
    e = .objectsException ∨ e = .objectsNotObtained := by
  unfold initCorners at h
  repeat' split at h
  all_goals
    obtain ⟨_, h2⟩ := Prod.mk.inj h
  all_goals first
    | (cases h2 <;> first
        | exact Or.inr (Or.inr (Or.inr (Or.inl rfl)))
        | exact Or.inr (Or.inr (Or.inr (Or.inr rfl))))
    | (rcases getCorners_error h2 with h3 | h3 | h3
       · exact Or.inl h3
       · exact Or.inr (Or.inl h3)
       · exact Or.inr (Or.inr (Or.inl h3)))

theorem createConfigArg_error {prhs : List (MxArray D)} {e : MexError}
    (h : (if prhs.length > 1 then
        match prhs[1]? with
        | some mx_cfg =>
          match mx_cfg.data with
          | .chars cfg_str => Res.ok (some (cString cfg_str))
          | _ => .error .createSecondArgNotString
        | none => .undefined
      else .ok none) = Res.error e) : e = .createSecondArgNotString := by
  repeat' split at h
  all_goals cases h
  rfl

theorem getImage_not_invalidCommand {mx_img : MxArray D} {c : String}
    (h : getImage mx_img = .error (.invalidCommand c)) : False := by
  rcases getImage_error h with h1 | h1 <;> cases h1

theorem getCorners_not_invalidCommand {mx_corners : MxArray D} {c : String}
    (h : getCorners mx_corners = .error (.invalidCommand c)) : False := by
  rcases getCorners_error h with h1 | h1 | h1 <;> cases h1

theorem initCorners_not_invalidCommand {E : Engine W T P X D} {s s' : State W T P D}
    {prhs : List (MxArray D)} {init_img : Mat uchar} {c : String}
    (h : initCorners E s prhs init_img = (s', .error (.invalidCommand c))) : False := by
  rcases initCorners_error h with h1 | h1 | h1 | h1 | h1 <;> cases h1

theorem mexCreate_not_invalidCommand (E : Engine W T P X D) (s : State W T P D)
    (prhs : List (MxArray D)) (c : String) :
    (mexCreate E s prhs).2 ≠ .error (.invalidCommand c) := by
  unfold mexCreate
  dsimp only
  repeat' split
  all_goals
    intro hcontra
    first
    | (cases hcontra; done)
    | (cases hcontra
       exact nomatch (createConfigArg_error (e := .invalidCommand c) ‹_ = Res.error _›))

theorem mexRemove_not_invalidCommand (E : Engine W T P X D) (s : State W T P D)
    (nlhs : Nat) (prhs : List (MxArray D)) (c : String) :
    (mexRemove E s nlhs prhs).2 ≠ .error (.invalidCommand c) := by
  unfold mexRemove
  dsimp only
  repeat' split
  all_goals
    intro hcontra
    first
    | (cases hcontra; done)
    | (cases hcontra
       exact nomatch (selectTrackerID_error (e := .invalidCommand c) ‹selectTrackerID _ _ _ = _›))

theorem mexUpdate_not_invalidCommand [Zero D] (E : Engine W T P X D) (s : State W T P D)
    (nlhs : Nat) (prhs : List (MxArray D)) (c : String) :
    (mexUpdate E s nlhs prhs).2 ≠ .error (.invalidCommand c) := by
  unfold mexUpdate
  dsimp only
  repeat' split
  all_goals
    intro hcontra
    first
    | (cases hcontra; done)
    | (cases hcontra
       first
       | exact nomatch (selectTrackerID_error (e := .invalidCommand c) ‹selectTrackerID _ _ _ = _›)
       | exact getImage_not_invalidCommand ‹getImage _ = _›)

theorem mexSetRegion_not_invalidCommand [Zero D] (E : Engine W T P X D)
    (s : State W T P D) (nlhs : Nat) (prhs : List (MxArray D)) (c : String) :
    (mexSetRegion E s nlhs prhs).2 ≠ .error (.invalidCommand c) := by
  unfold mexSetRegion
  dsimp only
  repeat' split
  all_goals
    intro hcontra
    first
    | (cases hcontra; done)
    | (cases hcontra
       first
       | exact nomatch (selectTrackerID_error (e := .invalidCommand c) ‹selectTrackerID _ _ _ = _›)
       | exact getCorners_not_invalidCommand ‹getCorners _ = _›)

theorem mexInitialize_not_invalidCommand [Zero D] [Sub D] (E : Engine W T P X D)
    (s : State W T P D) (nlhs : Nat) (prhs : List (MxArray D)) (c : String) :
    (mexInitialize E s nlhs prhs).2 ≠ .error (.invalidCommand c) := by
  unfold mexInitialize
  dsimp only
  repeat' split
  all_goals
    intro hcontra
    first
    | (cases hcontra; done)
    | (cases hcontra
       first
       | exact nomatch (selectTrackerID_error (e := .invalidCommand c) ‹selectTrackerID _ _ _ = _›)
       | exact getImage_not_invalidCommand ‹getImage _ = _›
       | exact initCorners_not_invalidCommand ‹initCorners _ _ _ _ = _›)

end Dispatch

theorem commandOf_chars {D : Type} {prhs : List (MxArray D)} {mx_cmd : MxArray D} {host_str : String}
    (h0 : prhs[0]? = some mx_cmd) (hd : mx_cmd.data = .chars host_str) :
    commandOf prhs = some (cString host_str) := by
  unfold commandOf
  rw [h0]
  dsimp only
  rw [hd]

/-- A host string without a NUL character is read as it stands. -/
theorem cString_of_no_nul (host_str : String) (h : Char.ofNat 0 ∉ host_str.toList) :
    cString host_str = host_str := by
  unfold cString
  have ht : host_str.toList.takeWhile (fun ch => ch ≠ Char.ofNat 0) = host_str.toList := by
    rw [List.takeWhile_eq_self_iff]
    intro ch hch
    have hne : ch ≠ Char.ofNat 0 := fun he => h (he ▸ hch)
    simpa using hne
  rw [ht]
  rfl

/-- C17 as stated does not hold for every command string: the host string made of
`create`, a NUL character and `x` is not one of the five command names, yet the
code reads it as the C string `create` and creates a tracker. -/
theorem nul_terminated_command_accepted :
    "create\x00x" ∉ ["create", "initialize", "update", "set_region", "remove"] ∧
    cString "create\x00x" = "create" ∧
    (mexFunction demoEngine demoInit 1 [mxString "create\x00x"]).2 = .returned 1 none ∧
    (mexFunction demoEngine demoInit 1 [mxString "create\x00x"]).1.trackers = [some 0] := by
  decide

/-- C17, amended. The command that `mexFunction` sees is the C string of its first
argument, the characters before the first NUL, which is the whole host string when
that has no NUL. If this C string is not one of the five command names, the call is
aborted with the invalid-command error naming the C string and the state is
unchanged, whatever the other arguments; each of the five names is routed to its
own case of `mexFunction`, and none of these cases reports an invalid command. -/
theorem unknown_command_rejected {W T P X D : Type} [Zero D] [Sub D]
    (E : Engine W T P X D) (s : State W T P D) (nlhs : Nat) (prhs : List (MxArray D))
    (mx_cmd : MxArray D) (host_str : String)
    (h0 : prhs[0]? = some mx_cmd) (hd : mx_cmd.data = .chars host_str) :
    (Char.ofNat 0 ∉ host_str.toList → cString host_str = host_str) ∧
    (cString host_str ∉ ["create", "initialize", "update", "set_region", "remove"] →
      mexFunction E s nlhs prhs = (s, .error (.invalidCommand (cString host_str)))) ∧
    (cString host_str = "create" → mexFunction E s nlhs prhs = mexCreate E s prhs) ∧
    (cString host_str = "initialize" →
      mexFunction E s nlhs prhs = mexInitialize E s nlhs prhs) ∧
    (cString host_str = "update" → mexFunction E s nlhs prhs = mexUpdate E s nlhs prhs) ∧
    (cString host_str = "set_region" →
      mexFunction E s nlhs prhs = mexSetRegion E s nlhs prhs) ∧
    (cString host_str = "remove" → mexFunction E s nlhs prhs = mexRemove E s nlhs prhs) ∧
    (cString host_str ∈ ["create", "initialize", "update", "set_region", "remove"] →
      ∀ c, (mexFunction E s nlhs prhs).2 ≠ .error (.invalidCommand c)) := by
  have hc := commandOf_chars h0 hd
  refine ⟨cString_of_no_nul host_str, ?_⟩
  generalize cString host_str = cmd_str at hc
  refine ⟨mexFunction_unknown E s nlhs prhs cmd_str hc, ?_, ?_, ?_, ?_, ?_, ?_⟩
  · intro h; subst h; exact mexFunction_create E s nlhs prhs hc
  · intro h; subst h; exact mexFunction_initialize_eq E s nlhs prhs hc
  · intro h; subst h; exact mexFunction_update E s nlhs prhs hc
  · intro h; subst h; exact mexFunction_set_region E s nlhs prhs hc
  · intro h; subst h; exact mexFunction_remove E s nlhs prhs hc
  · intro hmem c
    simp only [List.mem_cons, List.mem_singleton, List.mem_nil_iff, or_false] at hmem
    rcases hmem with h | h | h | h | h <;> subst h
    · rw [mexFunction_create E s nlhs prhs hc]
      exact mexCreate_not_invalidCommand E s prhs c
    · rw [mexFunction_initialize_eq E s nlhs prhs hc]
      exact mexInitialize_not_invalidCommand E s nlhs prhs c
    · rw [mexFunction_update E s nlhs prhs hc]
      exact mexUpdate_not_invalidCommand E s nlhs prhs c
    · rw [mexFunction_set_region E s nlhs prhs hc]
      exact mexSetRegion_not_invalidCommand E s nlhs prhs c
    · rw [mexFunction_remove E s nlhs prhs hc]
      exact mexRemove_not_invalidCommand E s nlhs prhs c

/-- The command `bogus` is rejected and a `create` followed by a NUL and further
characters is routed to the case of `create`. -/
theorem unknown_command_rejected_witness :
    mexFunction demoEngine demoInit 2 [mxString "bogus", demoImage] =
      (demoInit, .error (.invalidCommand "bogus")) ∧
    mexFunction demoEngine demoInit 1 [mxString "create\x00x"] =
      mexCreate demoEngine demoInit [mxString "create\x00x"] :=
  ⟨(unknown_command_rejected demoEngine demoInit 2 [mxString "bogus", demoImage]
      (mxString "bogus") "bogus" rfl rfl).2.1 (by decide),
    (unknown_command_rejected demoEngine demoInit 1 [mxString "create\x00x"]
      (mxString "create\x00x") "create\x00x" rfl rfl).2.2.1 (by decide)⟩

section Remove
variable {W T P X D : Type}

theorem eraseTracker_fields (E : Engine W T P X D) (s : State W T P D) :
    (eraseTracker E s).trackers = s.trackers.eraseIdx s.tracker_id ∧
    (eraseTracker E s).pre_procs = s.pre_procs ∧
    (eraseTracker E s).tracker_created = s.tracker_created ∧
    (eraseTracker E s).tracker_initialized = s.tracker_initialized ∧
    (eraseTracker E s).frame_id = s.frame_id := by
  unfold eraseTracker
  dsimp only
  split <;> exact ⟨rfl, rfl, rfl, rfl, rfl⟩

/-- What a `remove` call that reports success does to the registry and to the
active index. -/
theorem mexRemove_succeeded {E : Engine W T P X D} {s s' : State W T P D} {nlhs : Nat}
    {prhs : List (MxArray D)} {o : Outcome D} (h : mexRemove E s nlhs prhs = (s', o))
    (hs : o.succeeded = true) :
    ∃ k, selectTrackerID s prhs 1 = .ok k ∧ k < s.trackers.length ∧
      s'.trackers = s.trackers.eraseIdx k ∧ s'.pre_procs = s.pre_procs ∧
      s'.tracker_id = (if s'.trackers.length = 0 then 0 else s'.trackers.length - 1) ∧
      o = .returned 1 none := by
  unfold mexRemove at h
  dsimp only at h
  repeat' split at h
  all_goals
    obtain ⟨h1, h2⟩ := Prod.mk.inj h
    subst h1 h2
  all_goals first
    | (simp [Outcome.succeeded] at hs; done)
    | (rename_i k hk hlt
       obtain ⟨e1, e2, _⟩ := eraseTracker_fields E { s with tracker_id := k }
       refine ⟨k, hk, by simpa using hlt, ?_, ?_, ?_, rfl⟩
       · exact e1
       · exact e2
       · rfl)

theorem selectTrackerID_absent (s : State W T P D) (prhs : List (MxArray D)) (i : Nat)
    (h : prhs.length ≤ i) : selectTrackerID s prhs i = .ok s.tracker_id := by
  unfold selectTrackerID
  rw [if_neg (by omega)]

theorem selectTrackerID_uint32 (s : State W T P D) (prhs : List (MxArray D)) (i : Nat)
    (dims : List Nat) (k : Nat) (rest : List Nat)
    (h : prhs[i]? = some ⟨dims, .uint32 (k :: rest)⟩) : selectTrackerID s prhs i = .ok k := by
  have hlt : i < prhs.length := by
    by_contra hc
    rw [List.getElem?_eq_none (by omega)] at h
    cases h
  unfold selectTrackerID
  rw [if_pos hlt, h]
  simp [getTrackerID, Res.ofOption]

theorem mexRemove_empty (E : Engine W T P X D) (s : State W T P D) (prhs : List (MxArray D))
    (k : Nat) (hempty : s.trackers = []) (hk : selectTrackerID s prhs 1 = .ok k) :
    mexRemove E s 1 prhs = ({ s with tracker_id := k }, .error (.invalidTrackerID k 0)) := by
  unfold mexRemove
  rw [if_neg (by simp)]
  simp only [hk]
  rw [if_pos (by simp [hempty])]
  simp [hempty]

theorem mexRemove_empty_trackers (E : Engine W T P X D) (s : State W T P D) (nlhs : Nat)
    (prhs : List (MxArray D)) (hempty : s.trackers = []) :
    (mexRemove E s nlhs prhs).1.trackers = [] ∧
    (mexRemove E s nlhs prhs).1.pre_procs = s.pre_procs := by
  unfold mexRemove
  dsimp only
  repeat' split
  all_goals first
    | exact ⟨hempty, rfl⟩
    | (rename_i hlt
       rw [hempty] at hlt
       simp at hlt)

end Remove

/-- C15. Whenever a `remove` call succeeds, the registry has one tracker less and the
active index afterwards is 0 if no tracker is left and the new last index
otherwise, whichever index was removed and whatever the active index was before;
and a `remove` call with one requested output that selects an existing index
succeeds. -/
theorem remove_sets_active_index {W T P X D : Type} [Zero D] [Sub D]
    (E : Engine W T P X D) (s : State W T P D) (nlhs : Nat) (prhs : List (MxArray D))
    (hc : commandOf prhs = some "remove") :
    (∀ k, nlhs = 1 → selectTrackerID s prhs 1 = .ok k → k < s.trackers.length →
      (mexFunction E s nlhs prhs).2 = .returned 1 none) ∧
    ((mexFunction E s nlhs prhs).2.succeeded = true →
      (mexFunction E s nlhs prhs).1.trackers.length + 1 = s.trackers.length ∧
      ((mexFunction E s nlhs prhs).1.trackers.length = 0 →
        (mexFunction E s nlhs prhs).1.tracker_id = 0) ∧
      ((mexFunction E s nlhs prhs).1.trackers.length ≠ 0 →
        (mexFunction E s nlhs prhs).1.tracker_id =
          (mexFunction E s nlhs prhs).1.trackers.length - 1)) := by
  rw [mexFunction_remove E s nlhs prhs hc]
  constructor
  · intro k hn hk hlt
    subst hn
    unfold mexRemove
    rw [if_neg (by simp)]
    simp only [hk]
    rw [if_neg (by simpa using hlt)]
  · intro hs
    obtain ⟨k, _, hlt, e1, _, e3, _⟩ := mexRemove_succeeded (Prod.mk.eta).symm hs
    refine ⟨?_, ?_, ?_⟩
    · rw [e1, List.length_eraseIdx, if_pos hlt]
      omega
    · intro h0
      rw [e3, if_pos h0]
    · intro h0
      rw [e3, if_neg h0]

theorem remove_sets_active_index_witness :
    (mexFunction demoEngine
      (run demoEngine demoInit [⟨1, [mxString "create"]⟩, ⟨1, [mxString "create"]⟩])
      1 [mxString "remove", mxUint32 0]).2 = .returned 1 none :=
  (remove_sets_active_index demoEngine
    (run demoEngine demoInit [⟨1, [mxString "create"]⟩, ⟨1, [mxString "create"]⟩])
    1 [mxString "remove", mxUint32 0] (by decide)).1 0 rfl (by decide) (by decide)

/-- C16. On a registry without trackers a `remove` call that requests one output fails
with the error of an invalid tracker ID, whether it names no index (the active
index is reported) or an explicit uint32 index (that index is reported), and the
registry is still empty afterwards. -/
theorem remove_on_empty_registry_fails {W T P X D : Type} [Zero D] [Sub D]
    (E : Engine W T P X D) (s : State W T P D) (prhs : List (MxArray D))
    (hempty : s.trackers = []) (hc : commandOf prhs = some "remove") :
    (prhs.length = 1 →
      (mexFunction E s 1 prhs).2 = .error (.invalidTrackerID s.tracker_id 0)) ∧
    (∀ dims k rest, prhs[1]? = some ⟨dims, .uint32 (k :: rest)⟩ →
      (mexFunction E s 1 prhs).2 = .error (.invalidTrackerID k 0)) ∧
    (mexFunction E s 1 prhs).1.trackers = [] ∧
    (mexFunction E s 1 prhs).1.pre_procs = s.pre_procs := by
  rw [mexFunction_remove E s 1 prhs hc]
  refine ⟨?_, ?_, mexRemove_empty_trackers E s 1 prhs hempty⟩
  · intro h1
    rw [mexRemove_empty E s prhs s.tracker_id hempty
      (selectTrackerID_absent s prhs 1 (by omega))]
  · intro dims k rest hk
    rw [mexRemove_empty E s prhs k hempty (selectTrackerID_uint32 s prhs 1 dims k rest hk)]

theorem remove_on_empty_registry_fails_witness :
    (mexFunction demoEngine demoInit 1 [mxString "remove", mxUint32 3]).2 =
      .error (.invalidTrackerID 3 0) :=
  (remove_on_empty_registry_fails demoEngine demoInit [mxString "remove", mxUint32 3]
    rfl (by decide)).2.1 [1, 1] 3 [] rfl

/-! ## Missing validation in `initialize` -/

/-- C11. The code does not reject `initialize` on a missing session. After `create` and
`remove` no tracker is left, yet `initialize` is not aborted with an error: it
runs the pre-processor that `remove` left at index 0 and then dereferences
`trackers[0]`, which does not exist. With an explicit index beyond the registry it
subscripts `pre_procs` out of range, where `update` given the same index is
aborted with the invalid-tracker-ID error. -/
theorem initialize_without_session_undefined :
    (run demoEngine demoInit [⟨1, [mxString "create"]⟩, ⟨1, [mxString "remove"]⟩]).trackers =
      [] ∧
    (mexFunction demoEngine
      (run demoEngine demoInit [⟨1, [mxString "create"]⟩, ⟨1, [mxString "remove"]⟩])
      2 [mxString "initialize", demoImage, demoRegion]).2 = .undefined ∧
    (mexFunction demoEngine
      (run demoEngine demoInit [⟨1, [mxString "create"]⟩, ⟨1, [mxString "remove"]⟩])
      2 [mxString "initialize", demoImage, demoRegion]).1.calls =
      (run demoEngine demoInit [⟨1, [mxString "create"]⟩, ⟨1, [mxString "remove"]⟩]).calls ++
        [.preProcInitialize 0] ∧
    (mexFunction demoEngine
      (run demoEngine demoInit
        [⟨1, [mxString "create"]⟩, ⟨2, [mxString "initialize", demoImage, demoRegion]⟩])
      2 [mxString "initialize", demoImage, demoRegion, mxUint32 3]).2 = .undefined ∧
    (mexFunction demoEngine
      (run demoEngine demoInit
        [⟨1, [mxString "create"]⟩, ⟨2, [mxString "initialize", demoImage, demoRegion]⟩])
      2 [mxString "update", demoImage, mxUint32 3]).2 = .error (.invalidTrackerID 3 1) := by
  decide

/-- C18. The code does not check the argument count of `initialize`: after `create`, a
call of `initialize` with the command name alone reads `prhs[1]`, which was not
supplied. The same call shape of `update` and of `set_region` is rejected with
their argument-count errors. -/
theorem initialize_reads_missing_argument :
    (mexFunction demoEngine (run demoEngine demoInit [⟨1, [mxString "create"]⟩])
      2 [mxString "initialize"]).2 = .undefined ∧
    (mexFunction demoEngine (run demoEngine demoInit [⟨1, [mxString "create"]⟩])
      2 [mxString "update"]).2 = .error .updateNeedsTwoInputs ∧
    (mexFunction demoEngine (run demoEngine demoInit [⟨1, [mxString "create"]⟩])
      2 [mxString "set_region"]).2 = .error .setRegionNeedsTwoInputs := by
  decide

/-! ## The frame counter -/

section FrameCounter
variable {W T P X D : Type}

theorem updateTracker_frame_id_of_eq {E : Engine W T P X D} {s s' : State W T P D}
    {curr_img : Mat uchar} {b : Bool} (h : updateTracker E s curr_img = (s', some b)) :
    s'.frame_id = s.frame_id + 1 := by
  unfold updateTracker at h
  split at h
  · cases (Prod.mk.inj h).2
  · rename_i frame_id hf
    obtain ⟨rfl, _⟩ := intResult_eq_some.1 hf
    dsimp only at h
    repeat' split at h
    all_goals
      obtain ⟨h1, h2⟩ := Prod.mk.inj h
    all_goals first
      | (cases h2; done)
      | (subst h1; rfl)

theorem regionOutput_frame_id [Zero D] {E : Engine W T P X D} {s s' : State W T P D}
    {mx : MxArray D} (h : regionOutput E s = some (s', mx)) : s'.frame_id = s.frame_id := by
  unfold regionOutput at h
  repeat' split at h
  all_goals first
    | (cases h; rfl)
    | cases h

/-- An `update` call that returns has added one to the frame counter; one that is
aborted with an error has left it as it was. -/
theorem mexUpdate_frame_id [Zero D] (E : Engine W T P X D) (s : State W T P D) (nlhs : Nat)
    (prhs : List (MxArray D)) :
    ((mexUpdate E s nlhs prhs).2.isReturned = true →
      (mexUpdate E s nlhs prhs).1.frame_id = s.frame_id + 1) ∧
    (∀ e, (mexUpdate E s nlhs prhs).2 = .error e →
      (mexUpdate E s nlhs prhs).1.frame_id = s.frame_id) := by
  unfold mexUpdate
  dsimp only
  repeat' split
  all_goals
    refine ⟨fun hr => ?_, fun e he => ?_⟩
  all_goals first
    | (simp [Outcome.isReturned] at hr; done)
    | (cases he; done)
    | rfl
    | (have h1 := updateTracker_frame_id_of_eq ‹updateTracker E _ _ = _›
       dsimp only at h1 ⊢
       first
         | (rw [regionOutput_frame_id ‹regionOutput E _ = _›]; exact h1)
         | exact h1)

theorem initializeTracker_true [Sub D] {E : Engine W T P X D} {s s' : State W T P D}
    {init_img : Mat uchar} {init_corners : Mat D}
    (h : initializeTracker E s init_img init_corners = (s', some true)) : s'.frame_id = 0 := by
  unfold initializeTracker at h
  dsimp only at h
  repeat' split at h
  all_goals
    obtain ⟨h1, h2⟩ := Prod.mk.inj h
  all_goals first
    | (cases h2; done)
    | (subst h1; rfl)

/-- An `initialize` call that reports success has set the frame counter to 0. -/
theorem mexInitialize_frame_id [Zero D] [Sub D] {E : Engine W T P X D}
    {s s' : State W T P D} {nlhs : Nat} {prhs : List (MxArray D)} {o : Outcome D}
    (h : mexInitialize E s nlhs prhs = (s', o)) (hs : o.succeeded = true) :
    s'.frame_id = 0 := by
  unfold mexInitialize at h
  dsimp only at h
  repeat' split at h
  all_goals
    obtain ⟨h1, h2⟩ := Prod.mk.inj h
    subst h1 h2
  all_goals first
    | (simp [Outcome.succeeded] at hs; done)
    | (dsimp only
       rw [regionOutput_frame_id ‹regionOutput E _ = _›]
       exact initializeTracker_true ‹initializeTracker E _ _ _ = _›)

theorem run_updates_frame_id [Zero D] [Sub D] (E : Engine W T P X D)
    (reqs : List (Request D)) (s : State W T P D)
    (hupd : ∀ r ∈ reqs, commandOf r.prhs = some "update")
    (hdef : ∀ o ∈ outcomes E s reqs, o ≠ .undefined) :
    (run E s reqs).frame_id = s.frame_id + (outcomes E s reqs).countP Outcome.isReturned := by
  induction reqs generalizing s with
  | nil => simp [run, outcomes]
  | cons r rest ih =>
    simp only [outcomes, List.mem_cons, forall_eq_or_imp] at hdef hupd
    obtain ⟨hd1, hd2⟩ := hdef
    obtain ⟨hu1, hu2⟩ := hupd
    simp only [run, outcomes, List.countP_cons]
    rw [ih _ hu2 hd2]
    have hfun := mexFunction_update E s r.nlhs r.prhs hu1
    obtain ⟨f1, f2⟩ := mexUpdate_frame_id E s r.nlhs r.prhs
    rw [← hfun] at f1 f2
    cases ho : (mexFunction E s r.nlhs r.prhs).2 with
    | returned ret region =>
      rw [f1 (by rw [ho]; rfl)]
      simp [Outcome.isReturned]
      omega
    | error e =>
      rw [f2 e ho]
      simp [Outcome.isReturned]
    | undefined => exact absurd ho hd1

end FrameCounter

/-- C19 as stated does not hold: after `create` and a successful `initialize` the frame
counter is 0; an `update` whose tracker step throws returns status 0, and the
frame counter is 1 afterwards. -/
theorem failed_update_increments_frame_id :
    (run demoEngineFailingUpdate demoInit
      [⟨1, [mxString "create"]⟩,
        ⟨2, [mxString "initialize", demoImage, demoRegion]⟩]).frame_id = 0 ∧
    (mexFunction demoEngineFailingUpdate
      (run demoEngineFailingUpdate demoInit
        [⟨1, [mxString "create"]⟩, ⟨2, [mxString "initialize", demoImage, demoRegion]⟩])
      2 [mxString "update", demoImage]).2 = .returned 0 none ∧
    (mexFunction demoEngineFailingUpdate
      (run demoEngineFailingUpdate demoInit
        [⟨1, [mxString "create"]⟩, ⟨2, [mxString "initialize", demoImage, demoRegion]⟩])
      2 [mxString "update", demoImage]).1.frame_id = 1 := by
  decide

/-- C19, amended. A successful `initialize` sets the frame counter to 0. An `update` call
that gets past validation adds one to the counter before the pipeline and the
engine run, so the counter has grown by one whenever the call returns, with status
1 or with status 0; an `update` call aborted by validation leaves it unchanged.
Along any sequence of `update` calls the counter grows by the number of calls that
returned. -/
theorem frame_counter_counts_returned_updates {W T P X D : Type} [Zero D] [Sub D]
    (E : Engine W T P X D) (s : State W T P D) :
    (∀ nlhs prhs, commandOf prhs = some "initialize" →
      (mexFunction E s nlhs prhs).2.succeeded = true →
      (mexFunction E s nlhs prhs).1.frame_id = 0) ∧
    (∀ nlhs prhs, commandOf prhs = some "update" →
      ((mexFunction E s nlhs prhs).2.isReturned = true →
        (mexFunction E s nlhs prhs).1.frame_id = s.frame_id + 1) ∧
      (∀ e, (mexFunction E s nlhs prhs).2 = .error e →
        (mexFunction E s nlhs prhs).1.frame_id = s.frame_id)) ∧
    (∀ reqs : List (Request D), (∀ r ∈ reqs, commandOf r.prhs = some "update") →
      (∀ o ∈ outcomes E s reqs, o ≠ .undefined) →
      (run E s reqs).frame_id =
        s.frame_id + (outcomes E s reqs).countP Outcome.isReturned) := by
  refine ⟨?_, ?_, fun reqs h1 h2 => run_updates_frame_id E reqs s h1 h2⟩
  · intro nlhs prhs hc hs
    rw [mexFunction_initialize_eq E s nlhs prhs hc] at hs ⊢
    exact mexInitialize_frame_id (Prod.mk.eta).symm hs
  · intro nlhs prhs hc
    rw [mexFunction_update E s nlhs prhs hc]
    exact mexUpdate_frame_id E s nlhs prhs

theorem frame_counter_counts_returned_updates_witness :
    (run demoEngineFailingUpdate
      (run demoEngineFailingUpdate demoInit
        [⟨1, [mxString "create"]⟩, ⟨2, [mxString "initialize", demoImage, demoRegion]⟩])
      [⟨2, [mxString "update", demoImage]⟩, ⟨2, [mxString "update"]⟩]).frame_id =
      (run demoEngineFailingUpdate demoInit
        [⟨1, [mxString "create"]⟩,
          ⟨2, [mxString "initialize", demoImage, demoRegion]⟩]).frame_id +
      (outcomes demoEngineFailingUpdate
        (run demoEngineFailingUpdate demoInit
          [⟨1, [mxString "create"]⟩, ⟨2, [mxString "initialize", demoImage, demoRegion]⟩])
        [⟨2, [mxString "update", demoImage]⟩, ⟨2, [mxString "update"]⟩]).countP
        Outcome.isReturned :=
  (frame_counter_counts_returned_updates demoEngineFailingUpdate
    (run demoEngineFailingUpdate demoInit
      [⟨1, [mxString "create"]⟩,
        ⟨2, [mxString "initialize", demoImage, demoRegion]⟩])).2.2
    [⟨2, [mxString "update", demoImage]⟩, ⟨2, [mxString "update"]⟩] (by decide) (by decide)

/-! ## Status and region output -/

section Refinement
variable {W T P X D : Type}

theorem setImages_spec (E : Engine W T P X D) (tracker : T) (id : Nat) (ps : List P)
    (s : State W T P D) :
    (setImages E tracker id ps s).1.world = (specSetImages E tracker ps s.world).1 ∧
    ((setImages E tracker id ps s).2 = none ↔ (specSetImages E tracker ps s.world).2 = true) := by
  induction ps generalizing s with
  | nil => simp [setImages, specSetImages]
  | cons p ps ih =>
    unfold setImages specSetImages
    cases h : E.setImage s.world tracker p with
    | mk w r =>
      cases r with
      | none => exact ih (s.call (.setImage id) w)
      | some err => simp [State.call]

theorem corners_readable (c : Mat D) (h : c.cols + 4 ≤ c.data.length) (i j : Nat)
    (hi : i < 2) (hj : j < 4) : ∃ v, c.at? i j = some v := by
  have hlt : i * c.cols + j < c.data.length := by
    interval_cases i <;> omega
  exact ⟨_, List.getElem?_eq_getElem hlt⟩

theorem initializeTracker_spec [Sub D] (E : Engine W T P X D) (s : State W T P D)
    (init_img : Mat uchar) (init_corners : Mat D) (pre_proc : P) (tracker : T)
    (hc : init_corners.cols + 4 ≤ init_corners.data.length)
    (hp : s.pre_procs[s.tracker_id]? = some pre_proc)
    (ht : s.trackers[s.tracker_id]? = some (some tracker)) :
    (initializeTracker E s init_img init_corners).2 =
      some (specInitialize E s.world pre_proc tracker init_img init_corners).2 ∧
    (initializeTracker E s init_img init_corners).1.world =
      (specInitialize E s.world pre_proc tracker init_img init_corners).1 := by
  obtain ⟨v00, h00⟩ := corners_readable init_corners hc 0 0 (by omega) (by omega)
  obtain ⟨v01, h01⟩ := corners_readable init_corners hc 0 1 (by omega) (by omega)
  obtain ⟨v02, h02⟩ := corners_readable init_corners hc 0 2 (by omega) (by omega)
  obtain ⟨v03, h03⟩ := corners_readable init_corners hc 0 3 (by omega) (by omega)
  obtain ⟨v10, h10⟩ := corners_readable init_corners hc 1 0 (by omega) (by omega)
  obtain ⟨v11, h11⟩ := corners_readable init_corners hc 1 1 (by omega) (by omega)
  obtain ⟨v12, h12⟩ := corners_readable init_corners hc 1 2 (by omega) (by omega)
  obtain ⟨v13, h13⟩ := corners_readable init_corners hc 1 3 (by omega) (by omega)
  have hr : List.range 4 = [0, 1, 2, 3] := by decide
  unfold initializeTracker
  dsimp only
  split
  · rename_i hloop
    simp [forLoop, hr, h00, h01, h02, h03, h10, h11, h12, h13] at hloop
  · split
    · rename_i m1 m2 m3 m4 e1 e2 e3 e4
      simp only [hp, ht, State.call]
      unfold specInitialize
      cases h1 : E.ppInitialize s.world pre_proc init_img with
      | mk w1 r1 =>
        cases r1 with
        | some e => exact ⟨rfl, rfl⟩
        | none =>
          dsimp only
          have hS := setImages_spec E tracker s.tracker_id (pre_proc :: E.ppChain w1 pre_proc)
            ({ s with min_x := m1, min_y := m2, max_x := m3, max_y := m4,
                      size_x := m3 - m1, size_y := m4 - m2,
                      img_height := init_img.rows, img_width := init_img.cols,
                      world := w1,
                      calls := s.calls ++ [Call.preProcInitialize s.tracker_id] } :
              State W T P D)
          dsimp only at hS
          rcases hsi : setImages E tracker s.tracker_id (pre_proc :: E.ppChain w1 pre_proc)
            ({ s with min_x := m1, min_y := m2, max_x := m3, max_y := m4,
                      size_x := m3 - m1, size_y := m4 - m2,
                      img_height := init_img.rows, img_width := init_img.cols,
                      world := w1,
                      calls := s.calls ++ [Call.preProcInitialize s.tracker_id] } :
              State W T P D) with ⟨s2, r2⟩
          rw [hsi] at hS
          rcases hsp : specSetImages E tracker (pre_proc :: E.ppChain w1 pre_proc) w1
            with ⟨w2, b2⟩
          rw [hsp] at hS
          dsimp only at hS
          obtain ⟨hw, hb⟩ := hS
          subst hw
          cases r2 with
          | some e =>
            have : b2 = false := by
              cases b2
              · rfl
              · exact absurd (hb.2 rfl) (by simp)
            subst this
            exact ⟨rfl, rfl⟩
          | none =>
            have : b2 = true := hb.1 rfl
            subst this
            dsimp only
            cases h3 : E.trkInitialize s2.world tracker init_corners with
            | mk w3 r3 =>
              cases r3 <;> exact ⟨rfl, rfl⟩
    · rename_i hn
      exact (hn _ _ _ _ h00 h10 h02 h12).elim

theorem updateTracker_spec (E : Engine W T P X D) (s : State W T P D)
    (curr_img : Mat uchar) (pre_proc : P) (tracker : T)
    (hf : s.frame_id < INT_MAX)
    (hp : s.pre_procs[s.tracker_id]? = some pre_proc)
    (ht : s.trackers[s.tracker_id]? = some (some tracker)) :
    (updateTracker E s curr_img).2 =
      some (specUpdate E s.world pre_proc tracker curr_img).2 ∧
    (updateTracker E s curr_img).1.world =
      (specUpdate E s.world pre_proc tracker curr_img).1 := by
  unfold updateTracker specUpdate
  rw [intResult_of_le (show s.frame_id + 1 ≤ INT_MAX from hf)]
  simp only [hp, ht, State.call]
  cases h1 : E.ppUpdate s.world pre_proc curr_img with
  | mk w1 r1 =>
    cases r1 with
    | some e => exact ⟨rfl, rfl⟩
    | none =>
      dsimp only
      cases h2 : E.trkUpdate w1 tracker with
      | mk w2 r2 =>
        cases r2 with
        | some e => exact ⟨rfl, rfl⟩
        | none =>
          dsimp only
          by_cases hr : E.reset_template w2 = true
          · simp only [hr, if_true]
            cases h3 : E.trkInitialize w2 tracker (E.getRegion w2 tracker) with
            | mk w3 r3 => cases r3 <;> exact ⟨rfl, rfl⟩
          · simp only [hr]
            exact ⟨rfl, rfl⟩

theorem setRegion_spec (E : Engine W T P X D) (s : State W T P D)
    (corners : Mat D) (tracker : T)
    (ht : s.trackers[s.tracker_id]? = some (some tracker)) :
    (setRegion E s corners).2 = some (specSetRegion E s.world tracker corners).2 ∧
    (setRegion E s corners).1.world = (specSetRegion E s.world tracker corners).1 := by
  unfold setRegion specSetRegion
  simp only [ht, State.call]
  cases h1 : E.trkSetRegion s.world tracker corners with
  | mk w1 r1 => cases r1 <;> exact ⟨rfl, rfl⟩

theorem regionOutput_eq [Zero D] (E : Engine W T P X D) (s : State W T P D) (tracker : T)
    (ht : s.trackers[s.tracker_id]? = some (some tracker)) :
    regionOutput E s =
      (setCorners (E.getRegion s.world tracker)).map
        (fun mx_corners => (s.call (.getRegion s.tracker_id) s.world, mx_corners)) := by
  unfold regionOutput
  simp only [ht]
  cases setCorners (E.getRegion s.world tracker) <;> rfl

theorem setCorners_dims [Zero D] (corners : Mat D) (mx : MxArray D)
    (h : setCorners corners = some mx) : mx.dims = [2, 4] := by
  unfold setCorners at h
  dsimp only at h
  repeat' split at h
  all_goals first
    | (cases h; rfl)
    | cases h

theorem regionOutput_some [Zero D] {E : Engine W T P X D} {s s' : State W T P D}
    {mx : MxArray D} (h : regionOutput E s = some (s', mx)) :
    ∃ tracker, s'.trackers[s'.tracker_id]? = some (some tracker) ∧
      setCorners (E.getRegion s'.world tracker) = some mx ∧ mx.dims = [2, 4] ∧
      s'.world = s.world := by
  unfold regionOutput at h
  repeat' split at h
  all_goals first
    | cases h; done
    | (have ht := ‹s.trackers[s.tracker_id]? = some (some _)›
       have hmx := ‹setCorners _ = some _›
       cases h
       exact ⟨_, ht, hmx, setCorners_dims _ _ hmx, rfl⟩)

theorem getCorners_shape {mx_corners : MxArray D} {corners : Mat D}
    (h : getCorners mx_corners = .ok corners) : corners.cols + 4 ≤ corners.data.length := by
  unfold getCorners at h
  dsimp only at h
  repeat' split at h
  all_goals first
    | cases h
    | (rename_i corners_ptr hd h1 h2
       cases ht : cv_transpose
           ({ rows := 4, cols := 2, channels := 1, data := corners_ptr } : Mat D) with
       | none => rw [ht] at h; cases h
       | some dst =>
         rw [ht] at h
         cases h
         obtain ⟨_, hcols, _, hlen, _⟩ := cv_transpose_spec _ _ ht
         dsimp only at hcols hlen
         omega)

/-- An `update` call that passes validation and selects an existing session reports
what the pre-processing pipeline and the tracker did. -/
theorem mexUpdate_agrees [Zero D] (E : Engine W T P X D) (s : State W T P D) (nlhs : Nat)
    (prhs : List (MxArray D)) (id : Nat) (mx_img : MxArray D) (curr_img : Mat uchar)
    (pre_proc : P) (tracker : T) (hf : s.frame_id < INT_MAX)
    (hn : 2 ≤ prhs.length) (hl : nlhs = 2) (hi : s.tracker_initialized = true)
    (hid : selectTrackerID s prhs 2 = .ok id)
    (h1 : prhs[1]? = some mx_img) (himg : getImage mx_img = .ok curr_img)
    (hp : s.pre_procs[id]? = some pre_proc) (ht : s.trackers[id]? = some (some tracker)) :
    (mexUpdate E s nlhs prhs).1.world = (specUpdate E s.world pre_proc tracker curr_img).1 ∧
    ((specUpdate E s.world pre_proc tracker curr_img).2 = false →
      (mexUpdate E s nlhs prhs).2 = .returned 0 none) ∧
    ((specUpdate E s.world pre_proc tracker curr_img).2 = true →
      ∀ mx, setCorners (E.getRegion (specUpdate E s.world pre_proc tracker curr_img).1 tracker) =
          some mx →
        (mexUpdate E s nlhs prhs).2 = .returned 1 (some mx)) := by
  have hlt : id < s.trackers.length := by
    rcases Nat.lt_or_ge id s.trackers.length with h | h
    · exact h
    · rw [List.getElem?_eq_none h] at ht; cases ht
  have hu := updateTracker_spec E ({ s with tracker_id := id } : State W T P D) curr_img
    pre_proc tracker hf hp ht
  have hi2 : (!s.tracker_initialized) = false := by rw [hi]; rfl
  unfold mexUpdate
  simp only [hid, h1, himg, hl, hi2, show ¬ prhs.length < 2 by omega,
    show ¬ id ≥ s.trackers.length by omega, if_false, ne_eq, not_true_eq_false,
    Bool.false_eq_true]
  rcases hut : updateTracker E ({ s with tracker_id := id } : State W T P D) curr_img
    with ⟨s1, r1⟩
  rw [hut] at hu
  have hst := updateTracker_statics_of_eq hut
  simp only [State.statics, Prod.mk.injEq] at hst
  obtain ⟨hs1, -, hs3, -⟩ := hst
  dsimp only at hu hs1 hs3
  obtain ⟨hr, hw⟩ := hu
  subst hr
  have ht1 : s1.trackers[s1.tracker_id]? = some (some tracker) := by
    rw [hs1, hs3]; exact ht
  cases hb : (specUpdate E s.world pre_proc tracker curr_img).2 with
  | false => exact ⟨hw, fun _ => rfl, fun h => nomatch h⟩
  | true =>
    dsimp only
    rw [regionOutput_eq E s1 tracker ht1]
    cases hm : setCorners (E.getRegion s1.world tracker) with
    | none =>
      refine ⟨hw, (fun h => nomatch h), fun _ mx hmx => ?_⟩
      rw [← hw, hm] at hmx
      cases hmx
    | some mx0 =>
      refine ⟨hw, (fun h => nomatch h), fun _ mx hmx => ?_⟩
      rw [← hw, hm] at hmx
      cases hmx
      rfl

/-- A `set_region` call that passes validation and selects an existing tracker
reports what the tracker did. -/
theorem mexSetRegion_agrees [Zero D] (E : Engine W T P X D) (s : State W T P D) (nlhs : Nat)
    (prhs : List (MxArray D)) (id : Nat) (mx_corners : MxArray D) (corners : Mat D)
    (tracker : T)
    (hn : 2 ≤ prhs.length) (hl : nlhs = 2) (hi : s.tracker_initialized = true)
    (hid : selectTrackerID s prhs 2 = .ok id)
    (h1 : prhs[1]? = some mx_corners) (hcor : getCorners mx_corners = .ok corners)
    (ht : s.trackers[id]? = some (some tracker)) :
    (mexSetRegion E s nlhs prhs).1.world = (specSetRegion E s.world tracker corners).1 ∧
    ((specSetRegion E s.world tracker corners).2 = false →
      (mexSetRegion E s nlhs prhs).2 = .returned 0 none) ∧
    ((specSetRegion E s.world tracker corners).2 = true →
      ∀ mx, setCorners (E.getRegion (specSetRegion E s.world tracker corners).1 tracker) =
          some mx →
        (mexSetRegion E s nlhs prhs).2 = .returned 1 (some mx)) := by
  have hlt : id < s.trackers.length := by
    rcases Nat.lt_or_ge id s.trackers.length with h | h
    · exact h
    · rw [List.getElem?_eq_none h] at ht; cases ht
  have hu := setRegion_spec E ({ s with tracker_id := id } : State W T P D) corners tracker ht
  have hi2 : (!s.tracker_initialized) = false := by rw [hi]; rfl
  unfold mexSetRegion
  simp only [hid, h1, hcor, hl, hi2, show ¬ prhs.length < 2 by omega,
    show ¬ id ≥ s.trackers.length by omega, if_false, ne_eq, not_true_eq_false,
    Bool.false_eq_true]
  rcases hut : setRegion E ({ s with tracker_id := id } : State W T P D) corners
    with ⟨s1, r1⟩
  rw [hut] at hu
  have hst := setRegion_statics_of_eq hut
  simp only [State.statics, Prod.mk.injEq] at hst
  obtain ⟨hs1, -, hs3, -⟩ := hst
  dsimp only at hu hs1 hs3
  obtain ⟨hr, hw⟩ := hu
  subst hr
  have ht1 : s1.trackers[s1.tracker_id]? = some (some tracker) := by
    rw [hs1, hs3]; exact ht
  cases hb : (specSetRegion E s.world tracker corners).2 with
  | false => exact ⟨hw, fun _ => rfl, fun h => nomatch h⟩
  | true =>
    dsimp only
    rw [regionOutput_eq E s1 tracker ht1]
    cases hm : setCorners (E.getRegion s1.world tracker) with
    | none =>
      refine ⟨hw, (fun h => nomatch h), fun _ mx hmx => ?_⟩
      rw [← hw, hm] at hmx
      cases hmx
    | some mx0 =>
      refine ⟨hw, (fun h => nomatch h), fun _ mx hmx => ?_⟩
      rw [← hw, hm] at hmx
      cases hmx
      rfl

theorem initCorners_shape {E : Engine W T P X D} {s s2 : State W T P D}
    {prhs : List (MxArray D)} {init_img : Mat uchar} {corners : Mat D}
    (h : initCorners E s prhs init_img = (s2, .ok corners)) (hn : 2 < prhs.length) :
    corners.cols + 4 ≤ corners.data.length := by
  unfold initCorners at h
  rw [if_pos hn] at h
  split at h
  · exact getCorners_shape (Prod.mk.inj h).2
  · cases h

/-- An `initialize` call that passes validation and selects an existing session
reports what the pre-processing pipeline and the tracker did. -/
theorem mexInitialize_agrees [Zero D] [Sub D] (E : Engine W T P X D) (s s2 : State W T P D)
    (nlhs : Nat) (prhs : List (MxArray D)) (id : Nat) (mx_img : MxArray D)
    (init_img : Mat uchar) (corners : Mat D) (pre_proc : P) (tracker : T)
    (hl : nlhs = 2) (hcr : s.tracker_created = true)
    (hid : selectTrackerID s prhs 3 = .ok id)
    (h1 : prhs[1]? = some mx_img) (himg : getImage mx_img = .ok init_img)
    (hcor : initCorners E ({ s with tracker_id := id } : State W T P D) prhs init_img =
      (s2, .ok corners))
    (hshape : prhs.length ≤ 2 → corners.cols + 4 ≤ corners.data.length)
    (hp : s.pre_procs[id]? = some pre_proc) (ht : s.trackers[id]? = some (some tracker)) :
    (mexInitialize E s nlhs prhs).1.world =
      (specInitialize E s2.world pre_proc tracker init_img corners).1 ∧
    ((specInitialize E s2.world pre_proc tracker init_img corners).2 = false →
      (mexInitialize E s nlhs prhs).2 = .returned 0 none) ∧
    ((specInitialize E s2.world pre_proc tracker init_img corners).2 = true →
      ∀ mx, setCorners (E.getRegion
          (specInitialize E s2.world pre_proc tracker init_img corners).1 tracker) = some mx →
        (mexInitialize E s nlhs prhs).2 = .returned 1 (some mx)) := by
  have hsh : corners.cols + 4 ≤ corners.data.length := by
    rcases Nat.lt_or_ge 2 prhs.length with h | h
    · exact initCorners_shape hcor h
    · exact hshape h
  have hst2 := initCorners_statics_of_eq hcor
  simp only [State.statics, Prod.mk.injEq] at hst2
  obtain ⟨h21, h22, h23, -⟩ := hst2
  have hp2 : s2.pre_procs[s2.tracker_id]? = some pre_proc := by rw [h22, h23]; exact hp
  have ht2 : s2.trackers[s2.tracker_id]? = some (some tracker) := by rw [h21, h23]; exact ht
  have hu := initializeTracker_spec E s2 init_img corners pre_proc tracker hsh hp2 ht2
  have hc2 : (!s.tracker_created) = false := by rw [hcr]; rfl
  unfold mexInitialize
  simp only [hid, h1, himg, hl, hc2, hcor, if_false, ne_eq, not_true_eq_false,
    Bool.false_eq_true]
  rcases hut : initializeTracker E s2 init_img corners with ⟨s1, r1⟩
  rw [hut] at hu
  have hst := initializeTracker_statics_of_eq hut
  simp only [State.statics, Prod.mk.injEq] at hst
  obtain ⟨hs1, -, hs3, -⟩ := hst
  dsimp only at hu
  obtain ⟨hr, hw⟩ := hu
  subst hr
  have ht1 : s1.trackers[s1.tracker_id]? = some (some tracker) := by
    rw [hs1, hs3]; exact ht2
  cases hb : (specInitialize E s2.world pre_proc tracker init_img corners).2 with
  | false => exact ⟨hw, fun _ => rfl, fun h => nomatch h⟩
  | true =>
    dsimp only
    rw [regionOutput_eq E s1 tracker ht1]
    cases hm : setCorners (E.getRegion s1.world tracker) with
    | none =>
      refine ⟨hw, (fun h => nomatch h), fun _ mx hmx => ?_⟩
      rw [← hw, hm] at hmx
      cases hmx
    | some mx0 =>
      refine ⟨hw, (fun h => nomatch h), fun _ mx hmx => ?_⟩
      rw [← hw, hm] at hmx
      cases hmx
      rfl

/-- Whatever `mexUpdate` returns to the host is status 0.0 with no second output, or
status 1.0 with the encoding of the region of the selected tracker. -/
theorem mexUpdate_returned [Zero D] {E : Engine W T P X D} {s s' : State W T P D} {nlhs : Nat}
    {prhs : List (MxArray D)} {r : Nat} {reg : Option (MxArray D)}
    (h : mexUpdate E s nlhs prhs = (s', .returned r reg)) :
    (r = 0 ∧ reg = none) ∨
    (r = 1 ∧ ∃ tracker mx, s'.trackers[s'.tracker_id]? = some (some tracker) ∧
      setCorners (E.getRegion s'.world tracker) = some mx ∧ reg = some mx ∧
      mx.dims = [2, 4]) := by
  unfold mexUpdate at h
  dsimp only at h
  repeat' split at h
  all_goals
    obtain ⟨h1, h2⟩ := Prod.mk.inj h
  all_goals first
    | (cases h2; done)
    | (cases h2; exact Or.inl ⟨rfl, rfl⟩)
    | (cases h2
       obtain ⟨tracker, ht, hmx, hd, -⟩ := regionOutput_some ‹regionOutput E _ = some _›
       subst h1
       exact Or.inr ⟨rfl, tracker, _, ht, hmx, rfl, hd⟩)

/-- Whatever `mexSetRegion` returns to the host is status 0.0 with no second output, or
status 1.0 with the encoding of the region of the selected tracker. -/
theorem mexSetRegion_returned [Zero D] {E : Engine W T P X D} {s s' : State W T P D} {nlhs : Nat}
    {prhs : List (MxArray D)} {r : Nat} {reg : Option (MxArray D)}
    (h : mexSetRegion E s nlhs prhs = (s', .returned r reg)) :
    (r = 0 ∧ reg = none) ∨
    (r = 1 ∧ ∃ tracker mx, s'.trackers[s'.tracker_id]? = some (some tracker) ∧
      setCorners (E.getRegion s'.world tracker) = some mx ∧ reg = some mx ∧
      mx.dims = [2, 4]) := by
  unfold mexSetRegion at h
  dsimp only at h
  repeat' split at h
  all_goals
    obtain ⟨h1, h2⟩ := Prod.mk.inj h
  all_goals first
    | (cases h2; done)
    | (cases h2; exact Or.inl ⟨rfl, rfl⟩)
    | (cases h2
       obtain ⟨tracker, ht, hmx, hd, -⟩ := regionOutput_some ‹regionOutput E _ = some _›
       subst h1
       exact Or.inr ⟨rfl, tracker, _, ht, hmx, rfl, hd⟩)

/-- Whatever `mexInitialize` returns to the host is status 0.0 with no second output, or
status 1.0 with the encoding of the region of the selected tracker. -/
theorem mexInitialize_returned [Zero D] [Sub D] {E : Engine W T P X D} {s s' : State W T P D} {nlhs : Nat}
    {prhs : List (MxArray D)} {r : Nat} {reg : Option (MxArray D)}
    (h : mexInitialize E s nlhs prhs = (s', .returned r reg)) :
    (r = 0 ∧ reg = none) ∨
    (r = 1 ∧ ∃ tracker mx, s'.trackers[s'.tracker_id]? = some (some tracker) ∧
      setCorners (E.getRegion s'.world tracker) = some mx ∧ reg = some mx ∧
      mx.dims = [2, 4]) := by
  unfold mexInitialize at h
  dsimp only at h
  repeat' split at h
  all_goals
    obtain ⟨h1, h2⟩ := Prod.mk.inj h
  all_goals first
    | (cases h2; done)
    | (cases h2; exact Or.inl ⟨rfl, rfl⟩)
    | (cases h2
       obtain ⟨tracker, ht, hmx, hd, -⟩ := regionOutput_some ‹regionOutput E _ = some _›
       subst h1
       exact Or.inr ⟨rfl, tracker, _, ht, hmx, rfl, hd⟩)

end Refinement

/-- C12. The code does not return a status for every call that passes validation. After
`create`, `initialize` and a `create` whose tracker factory returns a null pointer
(status 0), `trackers` has two entries, the second one null, and `pre_procs` has
one. An `update` call with index 1 passes every check of its case (two inputs, two
outputs, the initialized flag, the index below `trackers.size()`, a uint8 image
with 2 dimensions) and then subscripts `pre_procs[1]`: no status is returned, and
neither the pipeline nor the engine has been called, so neither succeeded nor
reported a failure. In the same state `set_region` with index 1 dereferences the
null tracker, and `initialize` with index 3, which no check compares with the
registry, subscripts `pre_procs[3]`. -/
theorem validated_update_returns_no_status :
    outcomes demoEngine demoInit
      [⟨1, [mxString "create"]⟩, ⟨2, [mxString "initialize", demoImage, demoRegion]⟩,
        ⟨1, [mxString "create", mxString "null_tracker"]⟩] =
      [.returned 1 none, .returned 1 (some demoRegion), .returned 0 none] ∧
    (run demoEngine demoInit
      [⟨1, [mxString "create"]⟩, ⟨2, [mxString "initialize", demoImage, demoRegion]⟩,
        ⟨1, [mxString "create", mxString "null_tracker"]⟩]).trackers = [some 0, none] ∧
    (run demoEngine demoInit
      [⟨1, [mxString "create"]⟩, ⟨2, [mxString "initialize", demoImage, demoRegion]⟩,
        ⟨1, [mxString "create", mxString "null_tracker"]⟩]).pre_procs = [0] ∧
    (run demoEngine demoInit
      [⟨1, [mxString "create"]⟩, ⟨2, [mxString "initialize", demoImage, demoRegion]⟩,
        ⟨1, [mxString "create", mxString "null_tracker"]⟩]).tracker_initialized = true ∧
    getImage demoImage = .ok ⟨2, 2, 1, [10, 30, 20, 40]⟩ ∧
    (mexFunction demoEngine
      (run demoEngine demoInit
        [⟨1, [mxString "create"]⟩, ⟨2, [mxString "initialize", demoImage, demoRegion]⟩,
          ⟨1, [mxString "create", mxString "null_tracker"]⟩])
      2 [mxString "update", demoImage, mxUint32 1]).2 = .undefined ∧
    (mexFunction demoEngine
      (run demoEngine demoInit
        [⟨1, [mxString "create"]⟩, ⟨2, [mxString "initialize", demoImage, demoRegion]⟩,
          ⟨1, [mxString "create", mxString "null_tracker"]⟩])
      2 [mxString "update", demoImage, mxUint32 1]).1.calls =
      (run demoEngine demoInit
        [⟨1, [mxString "create"]⟩, ⟨2, [mxString "initialize", demoImage, demoRegion]⟩,
          ⟨1, [mxString "create", mxString "null_tracker"]⟩]).calls ∧
    (mexFunction demoEngine
      (run demoEngine demoInit
        [⟨1, [mxString "create"]⟩, ⟨2, [mxString "initialize", demoImage, demoRegion]⟩,
          ⟨1, [mxString "create", mxString "null_tracker"]⟩])
      2 [mxString "set_region", demoRegion, mxUint32 1]).2 = .undefined ∧
    (mexFunction demoEngine
      (run demoEngine demoInit
        [⟨1, [mxString "create"]⟩, ⟨2, [mxString "initialize", demoImage, demoRegion]⟩,
          ⟨1, [mxString "create", mxString "null_tracker"]⟩])
      2 [mxString "initialize", demoImage, demoRegion, mxUint32 3]).2 = .undefined := by
  decide

end MexMTF
